import Mathlib

/-!
Cylon eye firmware (`es_project_1.c`): a shallow embedding.

The firmware is three interrupt handlers over a handful of 8-bit variables and
memory-mapped registers.  Each handler is embedded as a function on an explicit
machine state, run to completion.

* 8-bit variables and registers are natural numbers; every update is reduced
  `% 256` (or masked) exactly where the C code truncates.
* An `LED_ARRAY[i]` access with `i` outside `0..9` is undefined behaviour in C;
  the embedding returns `none` there, so a result `some s` certifies that every
  index used was in bounds.
* `for` loops with an 8-bit counter are run by `for_uint8`, which takes fuel;
  `none` also stands for a loop that did not finish within the fuel.
* The floating constants `FULL_SCALE * (k/10.0)` are read as exact rationals.
-/

namespace CylonEye

/-! ## Constants of the source -/

/-- Source: `#define GOING_RIGHT 0` -/
def GOING_RIGHT : Nat := 0
/-- Source: `#define GOING_LEFT 1` -/
def GOING_LEFT : Nat := 1

/-- Source: `#define FULL_SCALE 1023`, used only inside floating expressions. -/
def FULL_SCALE : ℚ := 1023
/-- Source: `#define LEVEL_1_MIN FULL_SCALE * (1/10.0)` -/
def LEVEL_1_MIN : ℚ := FULL_SCALE * (1 / 10)
/-- Source: `#define LEVEL_2_MIN FULL_SCALE * (2/10.0)` -/
def LEVEL_2_MIN : ℚ := FULL_SCALE * (2 / 10)
/-- Source: `#define LEVEL_3_MIN FULL_SCALE * (3/10.0)` -/
def LEVEL_3_MIN : ℚ := FULL_SCALE * (3 / 10)
/-- Source: `#define LEVEL_4_MIN FULL_SCALE * (4/10.0)` -/
def LEVEL_4_MIN : ℚ := FULL_SCALE * (4 / 10)
/-- Source: `#define LEVEL_5_MIN FULL_SCALE * (5/10.0)` -/
def LEVEL_5_MIN : ℚ := FULL_SCALE * (5 / 10)
/-- Source: `#define LEVEL_6_MIN FULL_SCALE * (6/10.0)` -/
def LEVEL_6_MIN : ℚ := FULL_SCALE * (6 / 10)
/-- Source: `#define LEVEL_7_MIN FULL_SCALE * (7/10.0)` -/
def LEVEL_7_MIN : ℚ := FULL_SCALE * (7 / 10)
/-- Source: `#define LEVEL_8_MIN FULL_SCALE * (8/10.0)` -/
def LEVEL_8_MIN : ℚ := FULL_SCALE * (8 / 10)
/-- Source: `#define LEVEL_9_MIN FULL_SCALE * (9/10.0)` -/
def LEVEL_9_MIN : ℚ := FULL_SCALE * (9 / 10)

/-- Source: `#define THREE_VOLTS FULL_SCALE * (3/5.0)` -/
def THREE_VOLTS : ℚ := FULL_SCALE * (3 / 5)

/-- Source: `#define NORMAL 0` -/
def NORMAL : Nat := 0
/-- Source: `#define FLIPPED 1` -/
def FLIPPED : Nat := 1

/-- Source: `#define PER_FOR_1PS 19531` -/
def PER_FOR_1PS : Nat := 19531
/-- Source: `#define PER_FOR_4PS 4882` -/
def PER_FOR_4PS : Nat := 4882

/-! ## Device header constants -/

/-- Modelled from the spec: the device header `avr/io.h` that declares the pin
bit masks is not part of the repository.  The spec asks for exactly one hardware
bit per LED index, so `PINn_bm` is the single-bit mask `2^n`. -/
def PIN0_bm : Nat := 1
/-- Modelled from the spec: single-bit mask of pin 1 (see `PIN0_bm`). -/
def PIN1_bm : Nat := 2
/-- Modelled from the spec: single-bit mask of pin 2 (see `PIN0_bm`). -/
def PIN2_bm : Nat := 4
/-- Modelled from the spec: single-bit mask of pin 3 (see `PIN0_bm`). -/
def PIN3_bm : Nat := 8
/-- Modelled from the spec: single-bit mask of pin 4 (see `PIN0_bm`). -/
def PIN4_bm : Nat := 16
/-- Modelled from the spec: single-bit mask of pin 5 (see `PIN0_bm`). -/
def PIN5_bm : Nat := 32
/-- Modelled from the spec: single-bit mask of pin 6 (see `PIN0_bm`). -/
def PIN6_bm : Nat := 64
/-- Modelled from the spec: the periodic-interrupt flag mask of the RTC, declared
in the absent device header; the handler only uses it to acknowledge its tick
source, a single flag bit. -/
def RTC_PI_bm : Nat := 1

/-! ## Machine state -/

/-- The four output ports that carry LEDs. -/
inductive PortId where
  | PORTA
  | PORTB
  | PORTC
  | PORTF
  deriving DecidableEq, Repr

/-- Source: `struct led_bits_t { PORT_t *port; uint8_t bm; }` -/
structure led_bits_t where
  port : PortId
  bm : Nat
  deriving DecidableEq, Repr

/-- Source: `struct led_bits_t LED_ARRAY[10]` -/
def LED_ARRAY : List led_bits_t :=
  [ ⟨PortId.PORTC, PIN5_bm⟩,
    ⟨PortId.PORTC, PIN4_bm⟩,
    ⟨PortId.PORTA, PIN0_bm⟩,
    ⟨PortId.PORTF, PIN5_bm⟩,
    ⟨PortId.PORTC, PIN6_bm⟩,
    ⟨PortId.PORTB, PIN2_bm⟩,
    ⟨PortId.PORTF, PIN4_bm⟩,
    ⟨PortId.PORTA, PIN1_bm⟩,
    ⟨PortId.PORTA, PIN2_bm⟩,
    ⟨PortId.PORTA, PIN3_bm⟩ ]

/-- The three write strobes of a port used by the firmware. -/
inductive LedOp where
  | OUTSET
  | OUTCLR
  | OUTTGL
  deriving DecidableEq, Repr

/-- One write through `LED_ARRAY[index]`, recorded in the order of execution. -/
structure LedWrite where
  op : LedOp
  index : Nat
  deriving DecidableEq, Repr

/-- Everything the handlers read or write.  `mode` is the global, `position` and
`direction` are the statics of the TCA0 handler, the `*_OUT` fields are the
output latches of the ports, and `trace` is a ghost log of the LED writes made
so far (oldest first). -/
structure Machine where
  mode : Nat
  position : Nat
  direction : Nat
  PORTA_OUT : Nat
  PORTB_OUT : Nat
  PORTC_OUT : Nat
  PORTF_OUT : Nat
  TCA0_PER : Nat
  TCA0_PERBUF : Nat
  TCA0_INTFLAGS : Nat
  RTC_PITINTFLAGS : Nat
  trace : List LedWrite
  deriving DecidableEq, Repr

/-- The output latch of a port. -/
def Machine.OUT (s : Machine) : PortId → Nat
  | PortId.PORTA => s.PORTA_OUT
  | PortId.PORTB => s.PORTB_OUT
  | PortId.PORTC => s.PORTC_OUT
  | PortId.PORTF => s.PORTF_OUT

/-- Replace the output latch of a port. -/
def Machine.setOUT (s : Machine) (p : PortId) (v : Nat) : Machine :=
  match p with
  | PortId.PORTA => { s with PORTA_OUT := v }
  | PortId.PORTB => { s with PORTB_OUT := v }
  | PortId.PORTC => { s with PORTC_OUT := v }
  | PortId.PORTF => { s with PORTF_OUT := v }

/-- Hardware effect of `port->OUTSET = bm`, `port->OUTCLR = bm` and
`port->OUTTGL = bm` on the 8-bit output latch: set, clear, or invert the bits
selected by `bm`. -/
def port_write (op : LedOp) (p : PortId) (bm : Nat) (s : Machine) : Machine :=
  match op with
  | LedOp.OUTSET => s.setOUT p ((s.OUT p ||| bm) % 256)
  | LedOp.OUTCLR => s.setOUT p (s.OUT p &&& (255 ^^^ (bm % 256)))
  | LedOp.OUTTGL => s.setOUT p ((s.OUT p ^^^ bm) % 256)

/-- Source: `LED_ARRAY[i].port->OUTxxx = LED_ARRAY[i].bm`; out of bounds is `none`. -/
def led_write (op : LedOp) (i : Nat) (s : Machine) : Option Machine :=
  match LED_ARRAY[i]? with
  | none => none
  | some led =>
    some (port_write op led.port led.bm { s with trace := s.trace ++ [⟨op, i⟩] })

/-- LED `i` is driven active: its bit in the output latch of its port is set. -/
def ledOn (s : Machine) (i : Nat) : Bool :=
  match LED_ARRAY[i]? with
  | none => false
  | some led => (s.OUT led.port &&& led.bm) != 0

/-- The LED surface: the four output latches. -/
def surface (s : Machine) : Nat × Nat × Nat × Nat :=
  (s.PORTA_OUT, s.PORTB_OUT, s.PORTC_OUT, s.PORTF_OUT)

/-! ## Loops -/

/-- Source: `for (uint8_t i = i0; cond(i); i++) body(i);` with the counter wrapping
modulo 256.  The first argument is fuel: a loop needs one unit per evaluation
of its condition. -/
def for_uint8 (cond : Nat → Bool) (body : Nat → Machine → Option Machine) :
    Nat → Nat → Machine → Option Machine
  | 0, _, _ => none
  | fuel + 1, i, s =>
    if cond i then
      (body i s).bind (for_uint8 cond body fuel ((i + 1) % 256))
    else some s

/-- Fuel given to every loop: more than the number of values of an 8-bit
counter. -/
def LOOP_FUEL : Nat := 257

/-! ## LED primitives -/

/-- Source: `void clear_leds()` -/
def clear_leds (s : Machine) : Option Machine :=
  for_uint8 (fun i => decide (i < 10)) (fun i s => led_write LedOp.OUTCLR i s) LOOP_FUEL 0 s

/-- Source: `void set_leds()` -/
def set_leds (s : Machine) : Option Machine :=
  for_uint8 (fun i => decide (i < 10)) (fun i s => led_write LedOp.OUTSET i s) LOOP_FUEL 0 s

/-- Source: `void toggle_leds()` -/
def toggle_leds (s : Machine) : Option Machine :=
  for_uint8 (fun i => decide (i < 10)) (fun i s => led_write LedOp.OUTTGL i s) LOOP_FUEL 0 s

/-- Source: `void thermometer(int level)`: the 8-bit counter is promoted to `int` for the
comparison with `level`. -/
def thermometer (level : Int) (s : Machine) : Option Machine :=
  (clear_leds s).bind
    (for_uint8 (fun i => decide ((i : Int) ≤ level))
      (fun i s => led_write LedOp.OUTSET i s) LOOP_FUEL 0)

/-! ## Interrupt handlers -/

/-- Source: `ISR(TCA0_OVF_vect)`: one sweep tick. -/
def ISR_TCA0_OVF_vect (s : Machine) : Option Machine :=
  (if s.mode = NORMAL then clear_leds s
   else if s.mode = FLIPPED then set_leds s
   else some s).bind fun s =>
  (if s.direction = GOING_RIGHT then
     if s.position = 9 then
       let s := { s with direction := GOING_LEFT }
       let s := { s with position := (s.position + 255) % 256 }
       led_write LedOp.OUTTGL s.position s
     else
       let s := { s with position := (s.position + 1) % 256 }
       led_write LedOp.OUTTGL s.position s
   else if s.direction = GOING_LEFT then
     if s.position = 0 then
       let s := { s with direction := GOING_RIGHT }
       let s := { s with position := (s.position + 1) % 256 }
       led_write LedOp.OUTTGL s.position s
     else
       let s := { s with position := (s.position + 255) % 256 }
       led_write LedOp.OUTTGL s.position s
   else some s).bind fun s =>
  some { s with TCA0_INTFLAGS := s.TCA0_INTFLAGS &&& (255 ^^^ 1) }

/-- Source: `ISR(RTC_PIT_vect)`: the mode toggle. -/
def ISR_RTC_PIT_vect (s : Machine) : Machine :=
  let s :=
    if s.mode = NORMAL then { s with mode := FLIPPED }
    else if s.mode = FLIPPED then { s with mode := NORMAL }
    else s
  { s with RTC_PITINTFLAGS := s.RTC_PITINTFLAGS &&& (255 ^^^ RTC_PI_bm) }

/-- Source: `ISR(ADC0_RESRDY_vect)`.  `ADC0_RES` is the value read from the result
register and `PORTE_IN` the value read from the input register of port E. -/
def ISR_ADC0_RESRDY_vect (ADC0_RES PORTE_IN : Nat) (s : Machine) : Option Machine :=
  let adc_reading : Nat := ADC0_RES % 65536
  let s :=
    if (adc_reading : ℚ) ≤ THREE_VOLTS then { s with TCA0_PERBUF := PER_FOR_1PS }
    else { s with TCA0_PERBUF := PER_FOR_4PS }
  if PORTE_IN &&& PIN1_bm ≠ 0 then some s
  else if (adc_reading : ℚ) < LEVEL_1_MIN then thermometer 0 s
  else if (adc_reading : ℚ) < LEVEL_2_MIN then thermometer 1 s
  else if (adc_reading : ℚ) < LEVEL_3_MIN then thermometer 2 s
  else if (adc_reading : ℚ) < LEVEL_4_MIN then thermometer 3 s
  else if (adc_reading : ℚ) < LEVEL_5_MIN then thermometer 4 s
  else if (adc_reading : ℚ) < LEVEL_6_MIN then thermometer 5 s
  else if (adc_reading : ℚ) < LEVEL_7_MIN then thermometer 6 s
  else if (adc_reading : ℚ) < LEVEL_8_MIN then thermometer 7 s
  else if (adc_reading : ℚ) < LEVEL_9_MIN then thermometer 8 s
  else thermometer 9 s

/-- The argument of the `thermometer` call selected by the ladder of
`ISR(ADC0_RESRDY_vect)` (source lines 316-335) for a given `adc_reading`. -/
def ladder_level (adc_reading : Nat) : Int :=
  if (adc_reading : ℚ) < LEVEL_1_MIN then 0
  else if (adc_reading : ℚ) < LEVEL_2_MIN then 1
  else if (adc_reading : ℚ) < LEVEL_3_MIN then 2
  else if (adc_reading : ℚ) < LEVEL_4_MIN then 3
  else if (adc_reading : ℚ) < LEVEL_5_MIN then 4
  else if (adc_reading : ℚ) < LEVEL_6_MIN then 5
  else if (adc_reading : ℚ) < LEVEL_7_MIN then 6
  else if (adc_reading : ℚ) < LEVEL_8_MIN then 7
  else if (adc_reading : ℚ) < LEVEL_9_MIN then 8
  else 9

/-- Source: the start-up sequence of `main` after the init calls and before
`sei()`: `clear_leds()` followed by `LED_ARRAY[0].port->OUTSET = LED_ARRAY[0].bm`. -/
def main_startup (s : Machine) : Option Machine :=
  (clear_leds s).bind (led_write LedOp.OUTSET 0)

/-- Run `n` consecutive sweep ticks, each to completion. -/
def sweep_ticks : Nat → Machine → Option Machine
  | 0, s => some s
  | n + 1, s => (sweep_ticks n s).bind ISR_TCA0_OVF_vect

/-- The triangle wave of the specification: `m` if `m ≤ 9`, else `18 - m`, with
`m = n mod 18`. -/
def triangle (n : Nat) : Nat :=
  let m := n % 18
  if m ≤ 9 then m else 18 - m

/-- A machine with all latches and registers zero, in the start-up state of the
C statics (`mode = NORMAL`, `position = 0`, `direction = GOING_RIGHT`). -/
def zero_machine : Machine :=
  { mode := NORMAL, position := 0, direction := GOING_RIGHT,
    PORTA_OUT := 0, PORTB_OUT := 0, PORTC_OUT := 0, PORTF_OUT := 0,
    TCA0_PER := 0, TCA0_PERBUF := 0, TCA0_INTFLAGS := 0, RTC_PITINTFLAGS := 0,
    trace := [] }

/-! ## Auxiliary definitions for the proofs -/

/-- Port and bit number of each LED, in index order: `LED_ARRAY[i].bm` is
`2 ^ bit`. -/
def led_pins : List (PortId × Nat) :=
  [ (PortId.PORTC, 5), (PortId.PORTC, 4), (PortId.PORTA, 0), (PortId.PORTF, 5),
    (PortId.PORTC, 6), (PortId.PORTB, 2), (PortId.PORTF, 4), (PortId.PORTA, 1),
    (PortId.PORTA, 2), (PortId.PORTA, 3) ]

/-- What a write strobe does to the one bit it selects. -/
def op_effect : LedOp → Bool → Bool
  | LedOp.OUTSET, _ => true
  | LedOp.OUTCLR, _ => false
  | LedOp.OUTTGL, b => !b

/-- The second state has the same variables and timer registers as the first;
only output latches and the ghost trace may differ. -/
def SameRegs (s t : Machine) : Prop :=
  t.mode = s.mode ∧ t.position = s.position ∧ t.direction = s.direction ∧
  t.TCA0_PER = s.TCA0_PER ∧ t.TCA0_PERBUF = s.TCA0_PERBUF ∧
  t.TCA0_INTFLAGS = s.TCA0_INTFLAGS ∧ t.RTC_PITINTFLAGS = s.RTC_PITINTFLAGS

/-- The same strobe written through `LED_ARRAY` at each index of a list, in
order. -/
def led_seq (op : LedOp) : List Nat → Machine → Option Machine
  | [], s => some s
  | i :: is, s => (led_write op i s).bind (led_seq op is)

/-- The LED writes of the background repaint of a sweep tick in a given mode. -/
def repaint_writes (mode : Nat) : List LedWrite :=
  if mode = NORMAL then (List.range 10).map (fun i => ⟨LedOp.OUTCLR, i⟩)
  else if mode = FLIPPED then (List.range 10).map (fun i => ⟨LedOp.OUTSET, i⟩)
  else []

/-- State of one LED after the background repaint of a sweep tick. -/
def repaint_led (mode : Nat) (before : Bool) : Bool :=
  if mode = NORMAL then false else if mode = FLIPPED then true else before

/-- Position and direction after the advance step of a sweep tick, for a
position in `0..9` and a direction that is `GOING_RIGHT` or `GOING_LEFT`. -/
def advance (position direction : Nat) : Nat × Nat :=
  if direction = GOING_RIGHT then
    if position = 9 then (8, GOING_LEFT) else (position + 1, GOING_RIGHT)
  else
    if position = 0 then (1, GOING_RIGHT) else (position - 1, GOING_LEFT)

/-- The state after the first `if` of `ISR(ADC0_RESRDY_vect)`: only the period
buffer is written, with the preset chosen by comparing with `THREE_VOLTS`. -/
def with_perbuf (adc_reading : Nat) (s : Machine) : Machine :=
  { s with TCA0_PERBUF :=
      if (adc_reading : ℚ) ≤ THREE_VOLTS then PER_FOR_1PS else PER_FOR_4PS }

/-- One interrupt delivered to the firmware.  The ADC interrupt carries the
values its handler reads from the result register and from port E. -/
inductive Handler where
  | TCA0_OVF
  | RTC_PIT
  | ADC0_RESRDY (ADC0_RES PORTE_IN : Nat)
  deriving DecidableEq, Repr

/-- Run the handler of one interrupt to completion. -/
def dispatch : Handler → Machine → Option Machine
  | Handler.TCA0_OVF, s => ISR_TCA0_OVF_vect s
  | Handler.RTC_PIT, s => some (ISR_RTC_PIT_vect s)
  | Handler.ADC0_RESRDY r pe, s => ISR_ADC0_RESRDY_vect r pe s

/-- Run a finite sequence of interrupts, first one first, each handler to
completion before the next starts. -/
def run_handlers : List Handler → Machine → Option Machine
  | [], s => some s
  | h :: hs, s => (dispatch h s).bind (run_handlers hs)

/-- The variables hold values of their intended ranges: position in `0..9`,
direction one of the two directions, mode one of the two modes. -/
def WellFormed (s : Machine) : Prop :=
  s.position ≤ 9 ∧ (s.direction = GOING_RIGHT ∨ s.direction = GOING_LEFT) ∧
  (s.mode = NORMAL ∨ s.mode = FLIPPED)

/-- Exactly one LED is on, the one at the sweep position. -/
def eye_on_frame (s : Machine) : Prop :=
  ∀ j, j < 10 → ledOn s j = decide (j = s.position)

/-- Exactly one LED is off, the one at the sweep position. -/
def eye_off_frame (s : Machine) : Prop :=
  ∀ j, j < 10 → ledOn s j = !decide (j = s.position)

/-- The LEDs `0..L` are on and the rest are off, for some `L` in `0..9`. -/
def bar_frame (s : Machine) : Prop :=
  ∃ L, L < 10 ∧ ∀ j, j < 10 → ledOn s j = decide (j ≤ L)

/-- The LED surface shows one of the three whole frames. -/
def whole_frame (s : Machine) : Prop :=
  eye_on_frame s ∨ eye_off_frame s ∨ bar_frame s

/-! ## Bit-level facts -/

theorem and_two_pow_bne (x m : Nat) : (x &&& 2 ^ m != 0) = x.testBit m := by
  rw [Nat.and_two_pow]
  cases h : x.testBit m <;> simp

theorem bit_set (x k m : Nat) (hm : m < 8) :
    (((x ||| 2 ^ k) % 256) &&& 2 ^ m != 0) = (if m = k then true else (x &&& 2 ^ m != 0)) := by
  rw [and_two_pow_bne, and_two_pow_bne, show (256 : Nat) = 2 ^ 8 by norm_num,
    Nat.testBit_mod_two_pow, Nat.testBit_or, Nat.testBit_two_pow]
  by_cases h : m = k
  · subst h; simp [hm]
  · have h' : ¬ k = m := fun e => h e.symm
    simp [h, h', hm]

theorem bit_clr (x k m : Nat) (hm : m < 8) :
    ((x &&& (255 ^^^ (2 ^ k % 256))) &&& 2 ^ m != 0)
      = (if m = k then false else (x &&& 2 ^ m != 0)) := by
  have h255 : (255 : Nat).testBit m = true := by
    rw [show (255 : Nat) = 2 ^ 8 - 1 by norm_num, Nat.testBit_two_pow_sub_one]; simp [hm]
  rw [and_two_pow_bne, and_two_pow_bne, show (256 : Nat) = 2 ^ 8 by norm_num,
    Nat.testBit_and, Nat.testBit_xor, Nat.testBit_mod_two_pow, Nat.testBit_two_pow, h255]
  by_cases h : m = k
  · subst h; simp [hm]
  · have h' : ¬ k = m := fun e => h e.symm
    simp [h, h', hm]

theorem bit_tgl (x k m : Nat) (hm : m < 8) :
    (((x ^^^ 2 ^ k) % 256) &&& 2 ^ m != 0)
      = (if m = k then !(x &&& 2 ^ m != 0) else (x &&& 2 ^ m != 0)) := by
  rw [and_two_pow_bne, and_two_pow_bne, show (256 : Nat) = 2 ^ 8 by norm_num,
    Nat.testBit_mod_two_pow, Nat.testBit_xor, Nat.testBit_two_pow]
  by_cases h : m = k
  · subst h; simp [hm]
  · have h' : ¬ k = m := fun e => h e.symm
    simp [h, h', hm]

/-! ## One LED write -/

theorem port_write_bit (op : LedOp) (p q : PortId) (k m : Nat) (s : Machine) (hm : m < 8) :
    ((port_write op p (2 ^ k) s).OUT q &&& 2 ^ m != 0)
      = (if p = q ∧ m = k then op_effect op (s.OUT q &&& 2 ^ m != 0)
         else (s.OUT q &&& 2 ^ m != 0)) := by
  cases op <;> cases p <;> cases q <;>
    simp only [port_write, Machine.setOUT, Machine.OUT, bit_set _ _ _ hm, bit_clr _ _ _ hm,
      bit_tgl _ _ _ hm, op_effect, true_and, false_and, if_false, reduceCtorEq]

theorem port_write_sameRegs (op : LedOp) (p : PortId) (bm : Nat) (s : Machine) :
    SameRegs s (port_write op p bm s) ∧ (port_write op p bm s).trace = s.trace := by
  cases op <;> cases p <;> simp [port_write, Machine.setOUT, SameRegs]

theorem led_pins_get (i : Nat) (hi : i < 10) :
    ∃ p k, k < 8 ∧ LED_ARRAY[i]? = some ⟨p, 2 ^ k⟩ ∧ led_pins[i]? = some (p, k) := by
  interval_cases i <;> exact ⟨_, _, by decide, by decide, rfl⟩

theorem led_pins_inj : ∀ i, i < 10 → ∀ j, j < 10 → led_pins[i]? = led_pins[j]? → i = j := by
  decide

theorem led_write_spec (op : LedOp) (i : Nat) (s : Machine) (hi : i < 10) :
    ∃ t, led_write op i s = some t ∧ SameRegs s t ∧ t.trace = s.trace ++ [⟨op, i⟩] ∧
      ∀ j, j < 10 → ledOn t j = if j = i then op_effect op (ledOn s j) else ledOn s j := by
  obtain ⟨p, k, hk, hA, hP⟩ := led_pins_get i hi
  refine ⟨port_write op p (2 ^ k) { s with trace := s.trace ++ [⟨op, i⟩] },
    by simp only [led_write, hA], ?_, ?_, ?_⟩
  · exact (port_write_sameRegs op p (2 ^ k) _).1
  · exact (port_write_sameRegs op p (2 ^ k) _).2
  · intro j hj
    obtain ⟨q, m, hm, hB, hQ⟩ := led_pins_get j hj
    simp only [ledOn, hB]
    rw [port_write_bit op p q k m _ hm]
    have hOUT : ∀ r, ({ s with trace := s.trace ++ [⟨op, i⟩] } : Machine).OUT r = s.OUT r := by
      intro r; cases r <;> rfl
    rw [hOUT]
    by_cases hji : j = i
    · subst hji
      rw [hA] at hB
      injection hB with hB
      injection hB with h1 h2
      have : k = m := Nat.pow_right_injective (le_refl 2) h2
      simp [h1, this]
    · have hne : ¬ (p = q ∧ m = k) := by
        rintro ⟨h1, h2⟩
        apply hji
        apply led_pins_inj j hj i hi
        rw [hP, hQ, h1, h2]
      simp [hne, hji]

/-! ## Sequences of LED writes and the loops -/

theorem sameRegs_refl (s : Machine) : SameRegs s s := by
  simp [SameRegs]

theorem sameRegs_trans {s t u : Machine} (h1 : SameRegs s t) (h2 : SameRegs t u) :
    SameRegs s u := by
  obtain ⟨a1, a2, a3, a4, a5, a6, a7⟩ := h1
  obtain ⟨b1, b2, b3, b4, b5, b6, b7⟩ := h2
  exact ⟨b1.trans a1, b2.trans a2, b3.trans a3, b4.trans a4, b5.trans a5, b6.trans a6,
    b7.trans a7⟩

theorem led_seq_spec (op : LedOp) (c : Bool) (hc : ∀ b, op_effect op b = c) :
    ∀ (l : List Nat) (s : Machine), (∀ i ∈ l, i < 10) →
      ∃ t, led_seq op l s = some t ∧ SameRegs s t ∧
        t.trace = s.trace ++ l.map (fun i => (⟨op, i⟩ : LedWrite)) ∧
        ∀ j, j < 10 → ledOn t j = if j ∈ l then c else ledOn s j := by
  intro l
  induction l with
  | nil =>
    intro s _
    exact ⟨s, rfl, sameRegs_refl s, by simp, by simp⟩
  | cons i is ih =>
    intro s hl
    obtain ⟨t1, h1, r1, tr1, on1⟩ := led_write_spec op i s (hl i (by simp))
    obtain ⟨t2, h2, r2, tr2, on2⟩ := ih t1 (fun k hk => hl k (by simp [hk]))
    refine ⟨t2, by simp [led_seq, h1, h2], sameRegs_trans r1 r2, by simp [tr2, tr1], ?_⟩
    intro j hj
    rw [on2 j hj, on1 j hj, hc]
    by_cases h : j ∈ is
    · simp [h]
    · by_cases h' : j = i <;> simp [h, h']

theorem for_uint8_led_seq (op : LedOp) (cond : Nat → Bool) (n : Nat) (hn : n ≤ 255)
    (hc : ∀ j, cond j = decide (j < n)) :
    ∀ (fuel i : Nat) (s : Machine), i ≤ n → n - i < fuel →
      for_uint8 cond (fun i s => led_write op i s) fuel i s
        = led_seq op (List.range' i (n - i)) s := by
  intro fuel
  induction fuel with
  | zero => intro i s _ h; omega
  | succ fuel ih =>
    intro i s hi hf
    by_cases h : i < n
    · have e : n - i = (n - (i + 1)) + 1 := by omega
      have hw : (i + 1) % 256 = i + 1 := Nat.mod_eq_of_lt (by omega)
      rw [e, List.range'_succ]
      simp only [for_uint8, hc, h, decide_True, if_true, led_seq, hw]
      congr 1
      funext u
      exact ih (i + 1) u (by omega) (by omega)
    · have e : n - i = 0 := by omega
      simp [for_uint8, hc, h, e, led_seq]

theorem clear_leds_spec (s : Machine) :
    ∃ t, clear_leds s = some t ∧ SameRegs s t ∧
      t.trace = s.trace ++ (List.range 10).map (fun i => (⟨LedOp.OUTCLR, i⟩ : LedWrite)) ∧
      ∀ j, j < 10 → ledOn t j = false := by
  have e : clear_leds s = led_seq LedOp.OUTCLR (List.range' 0 (10 - 0)) s :=
    for_uint8_led_seq LedOp.OUTCLR _ 10 (by decide) (fun _ => rfl) LOOP_FUEL 0 s
      (by decide) (by decide)
  obtain ⟨t, h, r, tr, hon⟩ := led_seq_spec LedOp.OUTCLR false (fun _ => rfl)
    (List.range' 0 (10 - 0)) s (by intro i hi; simp [List.mem_range'_1] at hi; omega)
  refine ⟨t, e.trans h, r, by rw [tr, List.range_eq_range'], ?_⟩
  intro j hj
  rw [hon j hj]
  simp [List.mem_range'_1, hj]

theorem set_leds_spec (s : Machine) :
    ∃ t, set_leds s = some t ∧ SameRegs s t ∧
      t.trace = s.trace ++ (List.range 10).map (fun i => (⟨LedOp.OUTSET, i⟩ : LedWrite)) ∧
      ∀ j, j < 10 → ledOn t j = true := by
  have e : set_leds s = led_seq LedOp.OUTSET (List.range' 0 (10 - 0)) s :=
    for_uint8_led_seq LedOp.OUTSET _ 10 (by decide) (fun _ => rfl) LOOP_FUEL 0 s
      (by decide) (by decide)
  obtain ⟨t, h, r, tr, hon⟩ := led_seq_spec LedOp.OUTSET true (fun _ => rfl)
    (List.range' 0 (10 - 0)) s (by intro i hi; simp [List.mem_range'_1] at hi; omega)
  refine ⟨t, e.trans h, r, by rw [tr, List.range_eq_range'], ?_⟩
  intro j hj
  rw [hon j hj]
  simp [List.mem_range'_1, hj]

theorem thermometer_spec (level : Int) (h0 : 0 ≤ level) (h9 : level ≤ 9) (s : Machine) :
    ∃ t, thermometer level s = some t ∧ SameRegs s t ∧
      t.trace = s.trace ++ (List.range 10).map (fun i => (⟨LedOp.OUTCLR, i⟩ : LedWrite))
        ++ (List.range (level.toNat + 1)).map (fun i => (⟨LedOp.OUTSET, i⟩ : LedWrite)) ∧
      ∀ j, j < 10 → ledOn t j = decide ((j : Int) ≤ level) := by
  obtain ⟨t1, h1, r1, tr1, on1⟩ := clear_leds_spec s
  have hc : ∀ j : Nat, decide ((j : Int) ≤ level) = decide (j < level.toNat + 1) := by
    intro j
    congr 1
    apply propext
    omega
  have e : for_uint8 (fun i => decide ((i : Int) ≤ level))
      (fun i s => led_write LedOp.OUTSET i s) LOOP_FUEL 0 t1
      = led_seq LedOp.OUTSET (List.range' 0 (level.toNat + 1 - 0)) t1 :=
    for_uint8_led_seq LedOp.OUTSET _ (level.toNat + 1) (by omega) hc LOOP_FUEL 0 t1
      (by omega) (by simp only [LOOP_FUEL]; omega)
  obtain ⟨t2, h2, r2, tr2, on2⟩ := led_seq_spec LedOp.OUTSET true (fun _ => rfl)
    (List.range' 0 (level.toNat + 1 - 0)) t1
    (by intro i hi; simp [List.mem_range'_1] at hi; omega)
  refine ⟨t2, ?_, sameRegs_trans r1 r2, ?_, ?_⟩
  · simp only [thermometer, h1, Option.some_bind]
    exact e.trans h2
  · rw [tr2, tr1, List.range_eq_range', List.range_eq_range']
    simp
  · intro j hj
    rw [on2 j hj, on1 j hj, hc j]
    simp [List.mem_range'_1]

/-! ## The sweep tick -/

theorem ledOn_congr {s t : Machine} (h : ∀ p, t.OUT p = s.OUT p) (j : Nat) :
    ledOn t j = ledOn s j := by
  unfold ledOn
  cases LED_ARRAY[j]? with
  | none => rfl
  | some led => simp only [h]

theorem flipped_ne_normal : ¬ (FLIPPED = NORMAL) := by decide

theorem repaint_spec (s : Machine) :
    ∃ u, (if s.mode = NORMAL then clear_leds s
          else if s.mode = FLIPPED then set_leds s else some s) = some u ∧
      SameRegs s u ∧ u.trace = s.trace ++ repaint_writes s.mode ∧
      ∀ j, j < 10 → ledOn u j = repaint_led s.mode (ledOn s j) := by
  by_cases hN : s.mode = NORMAL
  · obtain ⟨u, h, r, tr, hon⟩ := clear_leds_spec s
    exact ⟨u, by simp [hN, h], r, by simp [repaint_writes, hN, tr],
      fun j hj => by simp [repaint_led, hN, hon j hj]⟩
  · by_cases hF : s.mode = FLIPPED
    · obtain ⟨u, h, r, tr, hon⟩ := set_leds_spec s
      exact ⟨u, by simp [hF, flipped_ne_normal, h], r,
        by simp [repaint_writes, hF, flipped_ne_normal, tr],
        fun j hj => by simp [repaint_led, hF, flipped_ne_normal, hon j hj]⟩
    · exact ⟨s, by simp [hN, hF], sameRegs_refl s, by simp [repaint_writes, hN, hF],
        fun j _ => by simp [repaint_led, hN, hF]⟩

theorem sweep_tick_spec (s : Machine) (hp : s.position ≤ 9)
    (hd : s.direction = GOING_RIGHT ∨ s.direction = GOING_LEFT) :
    ∃ t, ISR_TCA0_OVF_vect s = some t ∧
      (t.position, t.direction) = advance s.position s.direction ∧
      t.mode = s.mode ∧ t.TCA0_PER = s.TCA0_PER ∧ t.TCA0_PERBUF = s.TCA0_PERBUF ∧
      t.trace = s.trace ++ repaint_writes s.mode ++ [⟨LedOp.OUTTGL, t.position⟩] ∧
      ∀ j, j < 10 → ledOn t j =
        if j = t.position then !(repaint_led s.mode (ledOn s j))
        else repaint_led s.mode (ledOn s j) := by
  obtain ⟨u, hu, ⟨r1, r2, r3, r4, r5, r6, r7⟩, tru, onu⟩ := repaint_spec s
  have key : ∀ (v : Machine), v.position ≤ 9 → v.mode = s.mode → v.TCA0_PER = s.TCA0_PER →
      v.TCA0_PERBUF = s.TCA0_PERBUF → v.trace = u.trace →
      (∀ j, ledOn v j = ledOn u j) →
      ∃ t, (led_write LedOp.OUTTGL v.position v).bind (fun s : Machine =>
          some { s with TCA0_INTFLAGS := s.TCA0_INTFLAGS &&& (255 ^^^ 1) }) = some t ∧
        t.position = v.position ∧
        t.direction = v.direction ∧ t.mode = s.mode ∧ t.TCA0_PER = s.TCA0_PER ∧
        t.TCA0_PERBUF = s.TCA0_PERBUF ∧
        t.trace = s.trace ++ repaint_writes s.mode ++ [⟨LedOp.OUTTGL, t.position⟩] ∧
        ∀ j, j < 10 → ledOn t j =
          if j = t.position then !(repaint_led s.mode (ledOn s j))
          else repaint_led s.mode (ledOn s j) := by
    intro v hv hm hper hbuf htr hled
    obtain ⟨w, hw, ⟨q1, q2, q3, q4, q5, _, _⟩, trw, onw⟩ :=
      led_write_spec LedOp.OUTTGL v.position v (by omega)
    refine ⟨{ w with TCA0_INTFLAGS := w.TCA0_INTFLAGS &&& (255 ^^^ 1) }, by rw [hw]; rfl,
      q2, q3, q1.trans hm, q4.trans hper, q5.trans hbuf, ?_, ?_⟩
    · show w.trace = s.trace ++ repaint_writes s.mode ++ [⟨LedOp.OUTTGL, w.position⟩]
      rw [trw, htr, tru, q2]
    · intro j hj
      have e : ledOn { w with TCA0_INTFLAGS := w.TCA0_INTFLAGS &&& (255 ^^^ 1) } j = ledOn w j :=
        ledOn_congr (fun p => by cases p <;> rfl) j
      rw [e, onw j hj, hled j, onu j hj]
      show (if j = v.position then _ else _) = if j = w.position then _ else _
      rw [q2]
      rfl
  have hne : ¬ (GOING_LEFT = GOING_RIGHT) := by decide
  rcases hd with hd | hd
  · have hud : u.direction = GOING_RIGHT := r3.trans hd
    by_cases h9 : s.position = 9
    · have hu9 : u.position = 9 := r2.trans h9
      obtain ⟨t, ht, a1, a2, rest⟩ := key
        { u with direction := GOING_LEFT, position := (u.position + 255) % 256 }
        (by simp [hu9]) r1 r4 r5 rfl (ledOn_congr (fun p => by cases p <;> rfl))
      refine ⟨t, ?_, ?_, rest⟩
      · unfold ISR_TCA0_OVF_vect
        simp only [hu, Option.some_bind]
        rw [if_pos hud, if_pos hu9]
        exact ht
      · rw [a1, a2]
        simp [advance, hd, h9, hu9]
    · have hu9 : ¬ u.position = 9 := by rw [r2]; exact h9
      obtain ⟨t, ht, a1, a2, rest⟩ := key
        { u with position := (u.position + 1) % 256 }
        (by simp only [r2]; omega) r1 r4 r5 rfl (ledOn_congr (fun p => by cases p <;> rfl))
      refine ⟨t, ?_, ?_, rest⟩
      · unfold ISR_TCA0_OVF_vect
        simp only [hu, Option.some_bind]
        rw [if_pos hud, if_neg hu9]
        exact ht
      · rw [a1, a2]
        have : (s.position + 1) % 256 = s.position + 1 := Nat.mod_eq_of_lt (by omega)
        simp [advance, hd, h9, r2, hud, this]
  · have hud : u.direction = GOING_LEFT := r3.trans hd
    have hud' : ¬ u.direction = GOING_RIGHT := by rw [hud]; exact hne
    by_cases h0 : s.position = 0
    · have hu0 : u.position = 0 := r2.trans h0
      obtain ⟨t, ht, a1, a2, rest⟩ := key
        { u with direction := GOING_RIGHT, position := (u.position + 1) % 256 }
        (by simp [hu0]) r1 r4 r5 rfl (ledOn_congr (fun p => by cases p <;> rfl))
      refine ⟨t, ?_, ?_, rest⟩
      · unfold ISR_TCA0_OVF_vect
        simp only [hu, Option.some_bind]
        rw [if_neg hud', if_pos hud, if_pos hu0]
        exact ht
      · rw [a1, a2]
        simp [advance, hd, h0, hu0, hne]
    · have hu0 : ¬ u.position = 0 := by rw [r2]; exact h0
      obtain ⟨t, ht, a1, a2, rest⟩ := key
        { u with position := (u.position + 255) % 256 }
        (by simp only [r2]; omega) r1 r4 r5 rfl (ledOn_congr (fun p => by cases p <;> rfl))
      refine ⟨t, ?_, ?_, rest⟩
      · unfold ISR_TCA0_OVF_vect
        simp only [hu, Option.some_bind]
        rw [if_neg hud', if_pos hud, if_neg hu0]
        exact ht
      · rw [a1, a2]
        have : (s.position + 255) % 256 = s.position - 1 := by omega
        simp [advance, hd, h0, r2, hud, hne, this]

/-! ## The thresholds as integer comparisons -/

theorem lt_scaled (r a : Nat) : ((r : ℚ) < (1023 : ℚ) * ((a : ℚ) / 10)) ↔ 10 * r < 1023 * a := by
  constructor
  · intro h
    have : ((10 * r : ℕ) : ℚ) < ((1023 * a : ℕ) : ℚ) := by push_cast; linarith
    exact_mod_cast this
  · intro h
    have : ((10 * r : ℕ) : ℚ) < ((1023 * a : ℕ) : ℚ) := by exact_mod_cast h
    push_cast at this
    linarith

theorem lt_LEVEL_1_MIN (r : Nat) : ((r : ℚ) < LEVEL_1_MIN) ↔ 10 * r < 1023 * 1 := by
  simpa [LEVEL_1_MIN, FULL_SCALE] using lt_scaled r 1

theorem lt_LEVEL_2_MIN (r : Nat) : ((r : ℚ) < LEVEL_2_MIN) ↔ 10 * r < 1023 * 2 := by
  simpa [LEVEL_2_MIN, FULL_SCALE] using lt_scaled r 2

theorem lt_LEVEL_3_MIN (r : Nat) : ((r : ℚ) < LEVEL_3_MIN) ↔ 10 * r < 1023 * 3 := by
  simpa [LEVEL_3_MIN, FULL_SCALE] using lt_scaled r 3

theorem lt_LEVEL_4_MIN (r : Nat) : ((r : ℚ) < LEVEL_4_MIN) ↔ 10 * r < 1023 * 4 := by
  simpa [LEVEL_4_MIN, FULL_SCALE] using lt_scaled r 4

theorem lt_LEVEL_5_MIN (r : Nat) : ((r : ℚ) < LEVEL_5_MIN) ↔ 10 * r < 1023 * 5 := by
  simpa [LEVEL_5_MIN, FULL_SCALE] using lt_scaled r 5

theorem lt_LEVEL_6_MIN (r : Nat) : ((r : ℚ) < LEVEL_6_MIN) ↔ 10 * r < 1023 * 6 := by
  simpa [LEVEL_6_MIN, FULL_SCALE] using lt_scaled r 6

theorem lt_LEVEL_7_MIN (r : Nat) : ((r : ℚ) < LEVEL_7_MIN) ↔ 10 * r < 1023 * 7 := by
  simpa [LEVEL_7_MIN, FULL_SCALE] using lt_scaled r 7

theorem lt_LEVEL_8_MIN (r : Nat) : ((r : ℚ) < LEVEL_8_MIN) ↔ 10 * r < 1023 * 8 := by
  simpa [LEVEL_8_MIN, FULL_SCALE] using lt_scaled r 8

theorem lt_LEVEL_9_MIN (r : Nat) : ((r : ℚ) < LEVEL_9_MIN) ↔ 10 * r < 1023 * 9 := by
  simpa [LEVEL_9_MIN, FULL_SCALE] using lt_scaled r 9

theorem le_THREE_VOLTS (r : Nat) : ((r : ℚ) ≤ THREE_VOLTS) ↔ r ≤ 613 := by
  unfold THREE_VOLTS FULL_SCALE
  constructor
  · intro h
    have : ((5 * r : ℕ) : ℚ) ≤ ((3069 : ℕ) : ℚ) := by push_cast; linarith
    have h2 : 5 * r ≤ 3069 := by exact_mod_cast this
    omega
  · intro h
    have h2 : 5 * r ≤ 3065 := by omega
    have : ((5 * r : ℕ) : ℚ) ≤ ((3065 : ℕ) : ℚ) := by exact_mod_cast h2
    push_cast at this
    linarith

theorem ladder_level_eq (r : Nat) : ladder_level r = ((min 9 (10 * r / 1023) : ℕ) : ℤ) := by
  simp only [ladder_level, lt_LEVEL_1_MIN, lt_LEVEL_2_MIN, lt_LEVEL_3_MIN, lt_LEVEL_4_MIN,
    lt_LEVEL_5_MIN, lt_LEVEL_6_MIN, lt_LEVEL_7_MIN, lt_LEVEL_8_MIN, lt_LEVEL_9_MIN]
  split_ifs <;> omega

theorem floor_bin (r : Nat) : ⌊(r : ℚ) / (1023 / 10)⌋ = ((10 * r / 1023 : ℕ) : ℤ) := by
  have e : (r : ℚ) / (1023 / 10) = ((10 * r : ℕ) : ℚ) / ((1023 : ℕ) : ℚ) := by
    push_cast; field_simp; ring
  rw [e, ← Int.natCast_floor_eq_floor (by positivity), Nat.floor_div_eq_div]

/-- The ADC handler, for a reading that fits the 16-bit result register: write
the period buffer, then either return (pin 1 of port E high) or call
`thermometer` with the level chosen by the ladder. -/
theorem adc_handler_eq (r pe : Nat) (s : Machine) (hr : r < 65536) :
    ISR_ADC0_RESRDY_vect r pe s =
      if pe &&& PIN1_bm ≠ 0 then some (with_perbuf r s)
      else thermometer (ladder_level r) (with_perbuf r s) := by
  have e : r % 65536 = r := Nat.mod_eq_of_lt hr
  have hs : (if (r : ℚ) ≤ THREE_VOLTS then { s with TCA0_PERBUF := PER_FOR_1PS }
      else { s with TCA0_PERBUF := PER_FOR_4PS }) = with_perbuf r s := by
    unfold with_perbuf
    by_cases h : (r : ℚ) ≤ THREE_VOLTS
    · rw [if_pos h, if_pos h]
    · rw [if_neg h, if_neg h]
  unfold ISR_ADC0_RESRDY_vect ladder_level
  simp only [e]
  rw [hs]
  by_cases hpe : pe &&& PIN1_bm ≠ 0
  · rw [if_pos hpe, if_pos hpe]
  rw [if_neg hpe, if_neg hpe]
  by_cases h1 : (r : ℚ) < LEVEL_1_MIN
  · rw [if_pos h1, if_pos h1]
  rw [if_neg h1, if_neg h1]
  by_cases h2 : (r : ℚ) < LEVEL_2_MIN
  · rw [if_pos h2, if_pos h2]
  rw [if_neg h2, if_neg h2]
  by_cases h3 : (r : ℚ) < LEVEL_3_MIN
  · rw [if_pos h3, if_pos h3]
  rw [if_neg h3, if_neg h3]
  by_cases h4 : (r : ℚ) < LEVEL_4_MIN
  · rw [if_pos h4, if_pos h4]
  rw [if_neg h4, if_neg h4]
  by_cases h5 : (r : ℚ) < LEVEL_5_MIN
  · rw [if_pos h5, if_pos h5]
  rw [if_neg h5, if_neg h5]
  by_cases h6 : (r : ℚ) < LEVEL_6_MIN
  · rw [if_pos h6, if_pos h6]
  rw [if_neg h6, if_neg h6]
  by_cases h7 : (r : ℚ) < LEVEL_7_MIN
  · rw [if_pos h7, if_pos h7]
  rw [if_neg h7, if_neg h7]
  by_cases h8 : (r : ℚ) < LEVEL_8_MIN
  · rw [if_pos h8, if_pos h8]
  rw [if_neg h8, if_neg h8]
  by_cases h9 : (r : ℚ) < LEVEL_9_MIN
  · rw [if_pos h9, if_pos h9]
  rw [if_neg h9, if_neg h9]

theorem ladder_level_range (r : Nat) : 0 ≤ ladder_level r ∧ ladder_level r ≤ 9 := by
  rw [ladder_level_eq]
  omega

/-- With pin 1 of port E high the ADC handler only writes the period buffer. -/
theorem adc_handler_released (r pe : Nat) (s : Machine) (hpe : pe &&& PIN1_bm ≠ 0) :
    ISR_ADC0_RESRDY_vect r pe s = some (with_perbuf (r % 65536) s) := by
  unfold ISR_ADC0_RESRDY_vect with_perbuf
  simp only
  rw [if_pos hpe]
  by_cases h : ((r % 65536 : ℕ) : ℚ) ≤ THREE_VOLTS
  · rw [if_pos h, if_pos h]
  · rw [if_neg h, if_neg h]

/-- With pin 1 of port E low the ADC handler draws the bar of the level chosen
by the ladder, whatever the LEDs showed before. -/
theorem adc_handler_pressed (r pe : Nat) (s : Machine) (hr : r ≤ 1023)
    (hpe : pe &&& PIN1_bm = 0) :
    ∃ t, ISR_ADC0_RESRDY_vect r pe s = some t ∧
      ∀ j, j < 10 → ledOn t j = decide ((j : Int) ≤ ladder_level r) := by
  obtain ⟨t, ht, _, _, hon⟩ :=
    thermometer_spec (ladder_level r) (ladder_level_range r).1 (ladder_level_range r).2
      (with_perbuf r s)
  refine ⟨t, ?_, hon⟩
  rw [adc_handler_eq r pe s (by omega), if_neg (by simpa using hpe)]
  exact ht

/-! ## C1: the bounce -/

theorem sweep_ticks_inv (s : Machine) (hp : s.position = 0) (hd : s.direction = GOING_RIGHT) :
    ∀ n, ∃ t, sweep_ticks n s = some t ∧ t.position = triangle n ∧
      (n % 18 = 0 → t.direction = GOING_RIGHT ∨ t.direction = GOING_LEFT) ∧
      (0 < n % 18 → n % 18 ≤ 9 → t.direction = GOING_RIGHT) ∧
      (10 ≤ n % 18 → t.direction = GOING_LEFT) := by
  intro n
  induction n with
  | zero =>
    exact ⟨s, rfl, by simp [hp, triangle], fun _ => Or.inl hd, fun h => absurd h (by decide),
      fun h => absurd h (by decide)⟩
  | succ n ih =>
    obtain ⟨t, ht, hpos, d0, d1, d2⟩ := ih
    have hle : t.position ≤ 9 := by
      rw [hpos]; simp only [triangle]; split <;> omega
    have hdir : t.direction = GOING_RIGHT ∨ t.direction = GOING_LEFT := by
      rcases Nat.eq_zero_or_pos (n % 18) with h | h
      · exact d0 h
      · by_cases h9 : n % 18 ≤ 9
        · exact Or.inl (d1 h h9)
        · exact Or.inr (d2 (by omega))
    obtain ⟨t', ht', hadv, _⟩ := sweep_tick_spec t hle hdir
    have hp' : t'.position = (advance t.position t.direction).1 := by rw [← hadv]
    have hd' : t'.direction = (advance t.position t.direction).2 := by rw [← hadv]
    refine ⟨t', by simp [sweep_ticks, ht, ht'], ?_, ?_, ?_, ?_⟩
    · rw [hp', hpos]
      simp only [triangle, advance, GOING_RIGHT, GOING_LEFT] at *
      rcases Nat.eq_zero_or_pos (n % 18) with h | h
      · have e : (n + 1) % 18 = 1 := by omega
        rw [h, e]
        rcases d0 h with h1 | h1 <;> simp [h1]
      · by_cases h9 : n % 18 ≤ 9
        · rw [d1 h h9]
          by_cases h9' : n % 18 = 9
          · have e : (n + 1) % 18 = 10 := by omega
            simp [h9', e]
          · have e : (n + 1) % 18 = n % 18 + 1 := by omega
            have e2 : n % 18 + 1 ≤ 9 := by omega
            simp [h9, h9', e, e2]
        · rw [d2 (by omega)]
          have h17 : n % 18 ≤ 17 := by omega
          by_cases h17' : n % 18 = 17
          · have e : (n + 1) % 18 = 0 := by omega
            simp [h17', e]
          · have e : (n + 1) % 18 = n % 18 + 1 := by omega
            have e2 : ¬ n % 18 + 1 ≤ 9 := by omega
            have e3 : ¬ 18 - n % 18 = 0 := by omega
            simp only [h9, e, e2, if_false, e3]
            simp
            omega
    · intro h
      rw [hd']
      simp only [advance, GOING_RIGHT, GOING_LEFT] at *
      split <;> split <;> simp
    · intro h1 h2
      rw [hd', hpos]
      simp only [triangle, advance, GOING_RIGHT, GOING_LEFT] at *
      rcases Nat.eq_zero_or_pos (n % 18) with h | h
      · rw [h]
        rcases d0 h with h3 | h3 <;> simp [h3]
      · have h9 : n % 18 ≤ 9 := by omega
        have h9' : ¬ n % 18 = 9 := by omega
        rw [d1 h h9]
        simp [h9, h9']
    · intro h1
      rw [hd', hpos]
      simp only [triangle, advance, GOING_RIGHT, GOING_LEFT] at *
      by_cases h9 : n % 18 ≤ 9
      · have h9' : n % 18 = 9 := by omega
        have h0 : 0 < n % 18 := by omega
        rw [d1 h0 h9]
        simp [h9']
      · rw [d2 (by omega)]
        have e3 : ¬ 18 - n % 18 = 0 := by omega
        simp [h9, e3]

/-- C1 (sweep bounce).  Starting from `position = 0`, `direction = GOING_RIGHT`,
`n` sweep ticks always complete, the position after them is the triangle wave
`triangle n` (period 18, peak 9), it lies in `0..9`, and the next tick moves it
up by exactly one while `n mod 18 < 9` and down by exactly one otherwise. -/
theorem sweep_bounce (s : Machine) (n : Nat)
    (hp : s.position = 0) (hd : s.direction = GOING_RIGHT) :
    ∃ t t', sweep_ticks n s = some t ∧ sweep_ticks (n + 1) s = some t' ∧
      t.position = triangle n ∧ t.position ≤ 9 ∧
      (n % 18 < 9 → t'.position = t.position + 1) ∧
      (9 ≤ n % 18 → t'.position + 1 = t.position) := by
  obtain ⟨t, ht, hpos, _⟩ := sweep_ticks_inv s hp hd n
  obtain ⟨t', ht', hpos', _⟩ := sweep_ticks_inv s hp hd (n + 1)
  refine ⟨t, t', ht, ht', hpos, ?_, ?_, ?_⟩
  · rw [hpos]; simp only [triangle]; split <;> omega
  · intro h
    rw [hpos, hpos']
    simp only [triangle]
    have e : (n + 1) % 18 = n % 18 + 1 := by omega
    rw [e]
    split <;> split <;> omega
  · intro h
    rw [hpos, hpos']
    simp only [triangle]
    split <;> split <;> omega

/-- Witness for C1: ten ticks from the all-zero start-up machine. -/
theorem sweep_bounce_witness :
    zero_machine.position = 0 ∧ zero_machine.direction = GOING_RIGHT ∧
    ∃ t t', sweep_ticks 10 zero_machine = some t ∧ sweep_ticks (10 + 1) zero_machine = some t' ∧
      t.position = triangle 10 ∧ t.position ≤ 9 ∧
      (10 % 18 < 9 → t'.position = t.position + 1) ∧
      (9 ≤ 10 % 18 → t'.position + 1 = t.position) :=
  ⟨rfl, rfl, sweep_bounce zero_machine 10 rfl rfl⟩

/-! ## C4, C8, C9, C10: the classifier -/

/-- C4 (classified level).  For every reading `r` in `0..1023`, whenever the ADC
handler gets past the button check it calls `thermometer` with the level picked
by its strict-less-than ladder, and that level is `min 9 ⌊r / 102.3⌋`, which is
also `min 9 ⌊10 r / 1023⌋`; the reading 1023 gives level 9. -/
theorem classified_level_formula (r : Nat) (hr : r ≤ 1023) :
    (∀ (pe : Nat) (s : Machine), pe &&& PIN1_bm = 0 →
      ISR_ADC0_RESRDY_vect r pe s = thermometer (ladder_level r) (with_perbuf r s)) ∧
    ladder_level r = min 9 ⌊(r : ℚ) / (1023 / 10)⌋ ∧
    ladder_level r = ((min 9 (10 * r / 1023) : ℕ) : ℤ) ∧
    ladder_level 1023 = 9 := by
  refine ⟨?_, ?_, ladder_level_eq r, ?_⟩
  · intro pe s hpe
    rw [adc_handler_eq r pe s (by omega)]
    simp [hpe]
  · rw [floor_bin, ladder_level_eq]
    omega
  · rw [ladder_level_eq]
    decide

/-- Witness for C4 at the reading 511, which falls in bin 4. -/
theorem classified_level_formula_witness :
    (511 ≤ 1023) ∧ ladder_level 511 = ((min 9 (10 * 511 / 1023) : ℕ) : ℤ) :=
  ⟨by decide, (classified_level_formula 511 (by decide)).2.2.1⟩

/-- C8 (speed preset).  For every reading `r` in `0..1023` and every value of
the port E input, the ADC handler returns and leaves in the period buffer the
slow preset 19531 when `r ≤ 613` and the fast preset 4882 when `r ≥ 614`,
whatever the buffer held before and whether or not the overlay is drawn. -/
theorem speed_preset (r pe : Nat) (s : Machine) (hr : r ≤ 1023) :
    (ISR_ADC0_RESRDY_vect r pe s).map (fun t => t.TCA0_PERBUF)
      = some (if r ≤ 613 then 19531 else 4882) ∧
    (1023 * 3 / 5 = 613) := by
  refine ⟨?_, by decide⟩
  have hb : (with_perbuf r s).TCA0_PERBUF = if r ≤ 613 then 19531 else 4882 := by
    simp only [with_perbuf, le_THREE_VOLTS, PER_FOR_1PS, PER_FOR_4PS]
  rw [adc_handler_eq r pe s (by omega)]
  by_cases hpe : pe &&& PIN1_bm ≠ 0
  · rw [if_pos hpe]
    simp only [Option.map_some', hb]
  · rw [if_neg hpe]
    obtain ⟨t, ht, ⟨_, _, _, _, q5, _, _⟩, _⟩ :=
      thermometer_spec (ladder_level r) (ladder_level_range r).1 (ladder_level_range r).2
        (with_perbuf r s)
    rw [ht]
    simp only [Option.map_some', q5, hb]

/-- Witness for C8 at the boundary reading 613 with the button pin low. -/
theorem speed_preset_witness :
    (613 ≤ 1023) ∧
    (ISR_ADC0_RESRDY_vect 613 0 zero_machine).map (fun t => t.TCA0_PERBUF)
      = some (if 613 ≤ 613 then 19531 else 4882) :=
  ⟨by decide, (speed_preset 613 0 zero_machine (by decide)).1⟩

/-- C9 (classifier monotonicity).  The level the ADC handler passes to
`thermometer` is non-decreasing in the reading over `0..1023`; reading 0 gives
level 0 and reading 1023 gives level 9. -/
theorem classifier_monotone (r1 r2 : Nat) (h12 : r1 < r2) (h2 : r2 ≤ 1023) :
    (∀ (r pe : Nat) (s : Machine), r ≤ 1023 → pe &&& PIN1_bm = 0 →
      ISR_ADC0_RESRDY_vect r pe s = thermometer (ladder_level r) (with_perbuf r s)) ∧
    ladder_level r1 ≤ ladder_level r2 ∧ ladder_level 0 = 0 ∧ ladder_level 1023 = 9 := by
  refine ⟨?_, ?_, ?_, ?_⟩
  · intro r pe s hr hpe
    rw [adc_handler_eq r pe s (by omega)]
    simp [hpe]
  · rw [ladder_level_eq, ladder_level_eq]
    have : 10 * r1 / 1023 ≤ 10 * r2 / 1023 := Nat.div_le_div_right (by omega)
    omega
  · rw [ladder_level_eq]; decide
  · rw [ladder_level_eq]; decide

/-- Witness for C9 across the first threshold: readings 102 and 103. -/
theorem classifier_monotone_witness :
    (102 < 103) ∧ (103 ≤ 1023) ∧ ladder_level 102 ≤ ladder_level 103 :=
  ⟨by decide, by decide, (classifier_monotone 102 103 (by decide) (by decide)).2.1⟩

/-- C10 (threshold boundary consistency).  For every `k` in `1..9` the ladder of
the ADC handler sends the reading `⌊1023 k / 10⌋` to a level `≥ k - 1` and the
reading `⌊1023 k / 10⌋ - 1` to a level `≤ k - 1`. -/
theorem threshold_boundary (k : Nat) (h1 : 1 ≤ k) (h9 : k ≤ 9) :
    (∀ (r pe : Nat) (s : Machine), r ≤ 1023 → pe &&& PIN1_bm = 0 →
      ISR_ADC0_RESRDY_vect r pe s = thermometer (ladder_level r) (with_perbuf r s)) ∧
    (k : ℤ) - 1 ≤ ladder_level (1023 * k / 10) ∧
    ladder_level (1023 * k / 10 - 1) ≤ (k : ℤ) - 1 := by
  refine ⟨?_, ?_, ?_⟩
  · intro r pe s hr hpe
    rw [adc_handler_eq r pe s (by omega)]
    simp [hpe]
  · rw [ladder_level_eq]
    interval_cases k <;> decide
  · rw [ladder_level_eq]
    interval_cases k <;> decide

/-- Witness for C10 at `k = 5`: readings 511 and 510. -/
theorem threshold_boundary_witness :
    (1 ≤ 5) ∧ (5 ≤ 9) ∧ ((5 : Nat) : ℤ) - 1 ≤ ladder_level (1023 * 5 / 10) ∧
    ladder_level (1023 * 5 / 10 - 1) ≤ ((5 : Nat) : ℤ) - 1 :=
  ⟨by decide, by decide, (threshold_boundary 5 (by decide) (by decide)).2⟩

/-! ## C2, C3: the overlay and the button -/

/-- C2, counterexample.  With pin 1 of port E low (button pressed), reading 0 and
all LEDs off, the ADC handler turns LED 0 on: bit 5 of port C goes from 0 to 1,
so the LED surface is not the one before the handler. -/
theorem overlay_gating_counterexample :
    (0 &&& PIN1_bm = 0) ∧
    surface zero_machine = (0, 0, 0, 0) ∧
    (ISR_ADC0_RESRDY_vect 0 0 zero_machine).map surface = some (0, 0, 32, 0) ∧
    (ISR_ADC0_RESRDY_vect 0 0 zero_machine).map surface ≠ some (surface zero_machine) := by
  have e : ISR_ADC0_RESRDY_vect 0 0 zero_machine = thermometer 0 (with_perbuf 0 zero_machine) := by
    rw [adc_handler_eq 0 0 zero_machine (by decide), if_neg (by decide), ladder_level_eq]
    rfl
  have v : (thermometer 0 (with_perbuf 0 zero_machine)).map surface = some (0, 0, 32, 0) := by
    decide
  rw [e, v]
  exact ⟨by decide, by decide, rfl, by decide⟩

/-- C2 as amended (overlay gating).  For every reading and every LED surface,
when pin 1 of port E reads high (button released) the ADC handler returns
without any LED write: the four output latches and the write trace are the ones
before the handler. -/
theorem overlay_gating_released (r pe : Nat) (s : Machine) (hpe : pe &&& PIN1_bm ≠ 0) :
    ∃ t, ISR_ADC0_RESRDY_vect r pe s = some t ∧ surface t = surface s ∧ t.trace = s.trace :=
  ⟨with_perbuf (r % 65536) s, adc_handler_released r pe s hpe, rfl, rfl⟩

/-- Witness for the amended C2: reading 700 with only pin 1 of port E high. -/
theorem overlay_gating_released_witness :
    (2 &&& PIN1_bm ≠ 0) ∧
    ∃ t, ISR_ADC0_RESRDY_vect 700 2 zero_machine = some t ∧
      surface t = surface zero_machine ∧ t.trace = zero_machine.trace :=
  ⟨by decide, overlay_gating_released 700 2 zero_machine (by decide)⟩

/-- C3, counterexample.  With pin 1 of port E high (button released), reading 0
and all LEDs off, the ADC handler returns with LED 0 still off. -/
theorem overlay_scenario_counterexample :
    (2 &&& PIN1_bm ≠ 0) ∧
    (ISR_ADC0_RESRDY_vect 0 2 zero_machine).map (fun t => ledOn t 0) = some false := by
  refine ⟨by decide, ?_⟩
  rw [adc_handler_released 0 2 zero_machine (by decide)]
  rfl

/-- C3 as amended (end-to-end overlay scenario).  With pin 1 of port E low
(button pressed) and any prior LED surface, after the ADC handler runs with
reading 0 exactly LED 0 is on; with reading 1023 all of LEDs 0..9 are on; with
reading 511 exactly LEDs 0..4 are on and LEDs 5..9 are off. -/
theorem overlay_scenario_pressed (pe : Nat) (s : Machine) (hpe : pe &&& PIN1_bm = 0) :
    (∃ t, ISR_ADC0_RESRDY_vect 0 pe s = some t ∧ ∀ j, j < 10 → ledOn t j = decide (j = 0)) ∧
    (∃ t, ISR_ADC0_RESRDY_vect 1023 pe s = some t ∧ ∀ j, j < 10 → ledOn t j = true) ∧
    (∃ t, ISR_ADC0_RESRDY_vect 511 pe s = some t ∧ ∀ j, j < 10 → ledOn t j = decide (j ≤ 4)) := by
  have l0 : ladder_level 0 = 0 := by rw [ladder_level_eq]; decide
  have l1023 : ladder_level 1023 = 9 := by rw [ladder_level_eq]; decide
  have l511 : ladder_level 511 = 4 := by rw [ladder_level_eq]; decide
  refine ⟨?_, ?_, ?_⟩
  · obtain ⟨t, ht, hon⟩ := adc_handler_pressed 0 pe s (by decide) hpe
    refine ⟨t, ht, fun j hj => ?_⟩
    rw [hon j hj, l0]
    congr 1
    apply propext
    omega
  · obtain ⟨t, ht, hon⟩ := adc_handler_pressed 1023 pe s (by decide) hpe
    refine ⟨t, ht, fun j hj => ?_⟩
    rw [hon j hj, l1023]
    simp
    omega
  · obtain ⟨t, ht, hon⟩ := adc_handler_pressed 511 pe s (by decide) hpe
    refine ⟨t, ht, fun j hj => ?_⟩
    rw [hon j hj, l511]
    congr 1
    apply propext
    omega

/-- Witness for the amended C3: port E input all zero, LEDs initially off. -/
theorem overlay_scenario_pressed_witness :
    (0 &&& PIN1_bm = 0) ∧
    (∃ t, ISR_ADC0_RESRDY_vect 511 0 zero_machine = some t ∧
      ∀ j, j < 10 → ledOn t j = decide (j ≤ 4)) :=
  ⟨by decide, (overlay_scenario_pressed 0 zero_machine (by decide)).2.2⟩

/-! ## C5, C6: the frame of a sweep tick -/

/-- C5 (sweep frame).  For every prior LED surface and every sweep state with
position in `0..9` and direction `GOING_RIGHT` or `GOING_LEFT`, one sweep tick
completes and the LEDs then depend only on the mode and the new position: in
NORMAL mode the LED at the new position is on and the other nine are off; in
FLIPPED mode the LED at the new position is off and the other nine are on. -/
theorem sweep_frame (s : Machine) (hp : s.position ≤ 9)
    (hd : s.direction = GOING_RIGHT ∨ s.direction = GOING_LEFT) :
    ∃ t, ISR_TCA0_OVF_vect s = some t ∧ t.position ≤ 9 ∧
      (s.mode = NORMAL → ∀ j, j < 10 → ledOn t j = decide (j = t.position)) ∧
      (s.mode = FLIPPED → ∀ j, j < 10 → ledOn t j = !decide (j = t.position)) := by
  obtain ⟨t, ht, hadv, _, _, _, _, hon⟩ := sweep_tick_spec s hp hd
  have hpos : t.position = (advance s.position s.direction).1 := by rw [← hadv]
  refine ⟨t, ht, ?_, ?_, ?_⟩
  · rw [hpos]
    unfold advance
    split <;> split <;> simp only <;> omega
  · intro hN j hj
    rw [hon j hj]
    by_cases h : j = t.position <;> simp [repaint_led, hN, h]
  · intro hF j hj
    rw [hon j hj]
    by_cases h : j = t.position <;> simp [repaint_led, hF, flipped_ne_normal, h]

/-- Witness for C5: the first tick of the start-up machine. -/
theorem sweep_frame_witness :
    (zero_machine.position ≤ 9) ∧
    (zero_machine.direction = GOING_RIGHT ∨ zero_machine.direction = GOING_LEFT) ∧
    ∃ t, ISR_TCA0_OVF_vect zero_machine = some t ∧ t.position ≤ 9 ∧
      (zero_machine.mode = NORMAL → ∀ j, j < 10 → ledOn t j = decide (j = t.position)) ∧
      (zero_machine.mode = FLIPPED → ∀ j, j < 10 → ledOn t j = !decide (j = t.position)) :=
  ⟨by decide, Or.inl rfl, sweep_frame zero_machine (by decide) (Or.inl rfl)⟩

/-- C6 (single toggle per tick).  For every sweep state with position in `0..9`
and direction `GOING_RIGHT` or `GOING_LEFT`, the LED writes of one sweep tick
are the background repaint, which contains no toggle, followed by exactly one
toggle; the toggled index is the position stored by the tick, which is 8 when
bouncing off 9, 1 when bouncing off 0, and `position + 1` or `position - 1`
otherwise. -/
theorem single_toggle (s : Machine) (hp : s.position ≤ 9)
    (hd : s.direction = GOING_RIGHT ∨ s.direction = GOING_LEFT) :
    ∃ t, ISR_TCA0_OVF_vect s = some t ∧
      t.trace = s.trace ++ repaint_writes s.mode ++ [⟨LedOp.OUTTGL, t.position⟩] ∧
      (∀ w ∈ repaint_writes s.mode, w.op ≠ LedOp.OUTTGL) ∧
      (s.direction = GOING_RIGHT → s.position = 9 → t.position = 8) ∧
      (s.direction = GOING_RIGHT → s.position ≠ 9 → t.position = s.position + 1) ∧
      (s.direction = GOING_LEFT → s.position = 0 → t.position = 1) ∧
      (s.direction = GOING_LEFT → s.position ≠ 0 → t.position + 1 = s.position) := by
  obtain ⟨t, ht, hadv, _, _, _, htr, _⟩ := sweep_tick_spec s hp hd
  have hpos : t.position = (advance s.position s.direction).1 := by rw [← hadv]
  have hne : ¬ (GOING_LEFT = GOING_RIGHT) := by decide
  refine ⟨t, ht, htr, ?_, ?_, ?_, ?_, ?_⟩
  · intro w hw
    unfold repaint_writes at hw
    split at hw
    · simp only [List.mem_map] at hw
      obtain ⟨i, _, rfl⟩ := hw
      exact fun h => LedOp.noConfusion h
    · split at hw
      · simp only [List.mem_map] at hw
        obtain ⟨i, _, rfl⟩ := hw
        exact fun h => LedOp.noConfusion h
      · simp at hw
  · intro h1 h2
    rw [hpos]; simp [advance, h1, h2]
  · intro h1 h2
    rw [hpos]; simp [advance, h1, h2]
  · intro h1 h2
    rw [hpos]; simp [advance, h1, h2, hne]
  · intro h1 h2
    rw [hpos]; simp [advance, h1, h2, hne]
    omega

/-- Witness for C6: the bounce off the right end, from position 9 going right,
toggles LED 8 once after the ten clears of the NORMAL repaint. -/
theorem single_toggle_witness :
    (9 ≤ 9) ∧ (GOING_RIGHT = GOING_RIGHT ∨ GOING_RIGHT = GOING_LEFT) ∧
    ∃ t, ISR_TCA0_OVF_vect { zero_machine with position := 9 } = some t ∧
      t.trace = [] ++ repaint_writes NORMAL ++ [⟨LedOp.OUTTGL, t.position⟩] ∧
      t.position = 8 :=
  ⟨by decide, Or.inl rfl,
    let ⟨t, h1, h2, _, h4, _⟩ :=
      single_toggle { zero_machine with position := 9 } (by decide) (Or.inl rfl)
    ⟨t, h1, h2, h4 rfl rfl⟩⟩

/-! ## C7: the thermometer -/

/-- C7 (thermometer render).  For every level in `0..9` and every prior LED
surface, `thermometer level` completes and afterwards LED `i` (for `i` in
`0..9`) is on exactly when `i ≤ level`, so exactly `level + 1` LEDs are lit. -/
theorem thermometer_render (level : Nat) (s : Machine) (hl : level ≤ 9) :
    ∃ t, thermometer (level : Int) s = some t ∧
      (∀ i, i < 10 → (ledOn t i = true ↔ i ≤ level)) ∧
      ((List.range 10).filter (fun i => ledOn t i)).length = level + 1 := by
  obtain ⟨t, ht, _, _, hon⟩ := thermometer_spec (level : Int) (by omega) (by omega) s
  have hon' : ∀ i, i < 10 → ledOn t i = decide (i ≤ level) := by
    intro i hi
    rw [hon i hi]
    congr 1
    apply propext
    omega
  refine ⟨t, ht, ?_, ?_⟩
  · intro i hi
    rw [hon' i hi]
    simp
  · have e : (List.range 10).filter (fun i => ledOn t i)
        = (List.range 10).filter (fun i => decide (i ≤ level)) := by
      apply List.filter_congr
      intro i hi
      exact hon' i (List.mem_range.mp hi)
    rw [e]
    interval_cases level <;> decide

/-- Witness for C7: level 3 drawn over the all-off surface. -/
theorem thermometer_render_witness :
    (3 ≤ 9) ∧
    ∃ t, thermometer ((3 : Nat) : Int) zero_machine = some t ∧
      (∀ i, i < 10 → (ledOn t i = true ↔ i ≤ 3)) ∧
      ((List.range 10).filter (fun i => ledOn t i)).length = 3 + 1 :=
  ⟨by decide, thermometer_render 3 zero_machine (by decide)⟩

/-! ## The handlers for every input -/

theorem adc_handler_mod (r pe : Nat) (s : Machine) :
    ISR_ADC0_RESRDY_vect r pe s = ISR_ADC0_RESRDY_vect (r % 65536) pe s := by
  unfold ISR_ADC0_RESRDY_vect
  simp only [Nat.mod_mod]

theorem with_perbuf_sameRegs (r : Nat) (s : Machine) :
    (with_perbuf r s).mode = s.mode ∧ (with_perbuf r s).position = s.position ∧
    (with_perbuf r s).direction = s.direction ∧ (with_perbuf r s).TCA0_PER = s.TCA0_PER ∧
    (with_perbuf r s).trace = s.trace ∧ surface (with_perbuf r s) = surface s ∧
    ∀ j, ledOn (with_perbuf r s) j = ledOn s j :=
  ⟨rfl, rfl, rfl, rfl, rfl, rfl, ledOn_congr (fun p => by cases p <;> rfl)⟩

/-- The ADC handler returns for every reading and every port E input; it leaves
the variables and the active period alone, and the LEDs are either untouched
(pin 1 high) or redrawn as the bar of the ladder level (pin 1 low). -/
theorem adc_handler_spec (r pe : Nat) (s : Machine) :
    ∃ t, ISR_ADC0_RESRDY_vect r pe s = some t ∧
      t.mode = s.mode ∧ t.position = s.position ∧ t.direction = s.direction ∧
      t.TCA0_PER = s.TCA0_PER ∧
      (pe &&& PIN1_bm ≠ 0 → surface t = surface s ∧ t.trace = s.trace ∧
        ∀ j, ledOn t j = ledOn s j) ∧
      (pe &&& PIN1_bm = 0 →
        t.trace = s.trace ++ (List.range 10).map (fun i => (⟨LedOp.OUTCLR, i⟩ : LedWrite))
          ++ (List.range ((ladder_level (r % 65536)).toNat + 1)).map
              (fun i => (⟨LedOp.OUTSET, i⟩ : LedWrite)) ∧
        ∀ j, j < 10 → ledOn t j = decide ((j : Int) ≤ ladder_level (r % 65536))) := by
  obtain ⟨w1, w2, w3, w4, w5, w6, w7⟩ := with_perbuf_sameRegs (r % 65536) s
  rw [adc_handler_mod, adc_handler_eq (r % 65536) pe s (Nat.mod_lt _ (by decide))]
  by_cases hpe : pe &&& PIN1_bm ≠ 0
  · rw [if_pos hpe]
    exact ⟨_, rfl, w1, w2, w3, w4, fun _ => ⟨w6, w5, w7⟩, fun h => absurd h hpe⟩
  · rw [if_neg hpe]
    obtain ⟨t, ht, ⟨q1, q2, q3, q4, _, _, _⟩, tr, hon⟩ :=
      thermometer_spec (ladder_level (r % 65536)) (ladder_level_range _).1
        (ladder_level_range _).2 (with_perbuf (r % 65536) s)
    refine ⟨t, ht, q1.trans w1, q2.trans w2, q3.trans w3, q4.trans w4,
      fun h => absurd h hpe, fun _ => ⟨?_, hon⟩⟩
    rw [tr, w5]

theorem rtc_handler_spec (s : Machine) :
    (ISR_RTC_PIT_vect s).position = s.position ∧
    (ISR_RTC_PIT_vect s).direction = s.direction ∧
    (ISR_RTC_PIT_vect s).TCA0_PER = s.TCA0_PER ∧
    (ISR_RTC_PIT_vect s).TCA0_PERBUF = s.TCA0_PERBUF ∧
    (ISR_RTC_PIT_vect s).trace = s.trace ∧
    surface (ISR_RTC_PIT_vect s) = surface s ∧
    (∀ j, ledOn (ISR_RTC_PIT_vect s) j = ledOn s j) ∧
    (ISR_RTC_PIT_vect s).mode =
      (if s.mode = NORMAL then FLIPPED else if s.mode = FLIPPED then NORMAL else s.mode) := by
  have e : ISR_RTC_PIT_vect s =
      { s with
        mode := (if s.mode = NORMAL then FLIPPED else if s.mode = FLIPPED then NORMAL
          else s.mode),
        RTC_PITINTFLAGS := s.RTC_PITINTFLAGS &&& (255 ^^^ RTC_PI_bm) } := by
    simp only [ISR_RTC_PIT_vect]
    split_ifs <;> rfl
  rw [e]
  exact ⟨rfl, rfl, rfl, rfl, rfl, rfl, ledOn_congr (fun p => by cases p <;> rfl), rfl⟩

/-! ## C11, C12: mode toggle and frame conditions -/

/-- C11 (mode toggle involution).  One run of the RTC PIT handler maps NORMAL to
FLIPPED and FLIPPED to NORMAL, and for every value of the mode two runs give
back the original mode. -/
theorem mode_toggle_involution (s : Machine) :
    (ISR_RTC_PIT_vect { s with mode := NORMAL }).mode = FLIPPED ∧
    (ISR_RTC_PIT_vect { s with mode := FLIPPED }).mode = NORMAL ∧
    (ISR_RTC_PIT_vect (ISR_RTC_PIT_vect s)).mode = s.mode := by
  refine ⟨rfl, rfl, ?_⟩
  have h1 := (rtc_handler_spec s).2.2.2.2.2.2.2
  have h2 := (rtc_handler_spec (ISR_RTC_PIT_vect s)).2.2.2.2.2.2.2
  rw [h2, h1]
  by_cases hN : s.mode = NORMAL
  · simp [hN, flipped_ne_normal]
  · by_cases hF : s.mode = FLIPPED
    · simp [hF, flipped_ne_normal]
    · simp [hN, hF]

/-- C12 (handler frame conditions).  From a state with position in `0..9` and a
proper direction: the sweep tick returns with the mode unchanged; the ADC
handler returns, for every reading and button level, with mode, position,
direction and the active period `PER` unchanged; `thermometer` leaves position
and direction unchanged; the mode-toggle handler leaves the output latches, the
position and the direction unchanged and makes no LED write. -/
theorem handler_frames (s : Machine) (hp : s.position ≤ 9)
    (hd : s.direction = GOING_RIGHT ∨ s.direction = GOING_LEFT) :
    (∃ t, ISR_TCA0_OVF_vect s = some t ∧ t.mode = s.mode) ∧
    (∀ r pe, ∃ t, ISR_ADC0_RESRDY_vect r pe s = some t ∧ t.mode = s.mode ∧
      t.position = s.position ∧ t.direction = s.direction ∧ t.TCA0_PER = s.TCA0_PER) ∧
    (∀ level : Int, 0 ≤ level → level ≤ 9 → ∃ t, thermometer level s = some t ∧
      t.mode = s.mode ∧ t.position = s.position ∧ t.direction = s.direction ∧
      t.TCA0_PER = s.TCA0_PER ∧ t.TCA0_PERBUF = s.TCA0_PERBUF) ∧
    (surface (ISR_RTC_PIT_vect s) = surface s ∧
      (ISR_RTC_PIT_vect s).trace = s.trace ∧
      (ISR_RTC_PIT_vect s).position = s.position ∧
      (ISR_RTC_PIT_vect s).direction = s.direction) := by
  refine ⟨?_, ?_, ?_, ?_⟩
  · obtain ⟨t, ht, _, hm, _⟩ := sweep_tick_spec s hp hd
    exact ⟨t, ht, hm⟩
  · intro r pe
    obtain ⟨t, ht, a1, a2, a3, a4, _⟩ := adc_handler_spec r pe s
    exact ⟨t, ht, a1, a2, a3, a4⟩
  · intro level h0 h9
    obtain ⟨t, ht, ⟨q1, q2, q3, q4, q5, _, _⟩, _⟩ := thermometer_spec level h0 h9 s
    exact ⟨t, ht, q1, q2, q3, q4, q5⟩
  · obtain ⟨b1, b2, _, _, b5, b6, _⟩ := rtc_handler_spec s
    exact ⟨b6, b5, b1, b2⟩

/-- Witness for C12: the start-up machine. -/
theorem handler_frames_witness :
    (zero_machine.position ≤ 9) ∧
    (zero_machine.direction = GOING_RIGHT ∨ zero_machine.direction = GOING_LEFT) ∧
    (∃ t, ISR_TCA0_OVF_vect zero_machine = some t ∧ t.mode = zero_machine.mode) ∧
    (∀ r pe, ∃ t, ISR_ADC0_RESRDY_vect r pe zero_machine = some t ∧
      t.mode = zero_machine.mode ∧ t.position = zero_machine.position ∧
      t.direction = zero_machine.direction ∧ t.TCA0_PER = zero_machine.TCA0_PER) :=
  ⟨by decide, Or.inl rfl,
    (handler_frames zero_machine (by decide) (Or.inl rfl)).1,
    (handler_frames zero_machine (by decide) (Or.inl rfl)).2.1⟩

/-! ## Bits of the output latches under LED writes -/

theorem eq_of_testBit_lt8 (x y : Nat) (hx : x < 256) (hy : y < 256)
    (h : ∀ m, m < 8 → x.testBit m = y.testBit m) : x = y := by
  apply Nat.eq_of_testBit_eq
  intro i
  by_cases hi : i < 8
  · exact h i hi
  · have h8 : 2 ^ 8 ≤ 2 ^ i := Nat.pow_le_pow_right (by decide) (by omega)
    rw [Nat.testBit_eq_false_of_lt (by omega), Nat.testBit_eq_false_of_lt (by omega)]

theorem port_write_OUT (op : LedOp) (p q : PortId) (bm : Nat) (s : Machine) :
    (p = q → (port_write op p bm s).OUT q < 256) ∧
    (p ≠ q → (port_write op p bm s).OUT q = s.OUT q) := by
  have hc : ∀ x : Nat, x &&& (255 ^^^ (bm % 256)) < 256 := fun x =>
    lt_of_le_of_lt Nat.and_le_right
      (Nat.xor_lt_two_pow (n := 8) (by decide) (Nat.mod_lt _ (by decide)))
  have hm : ∀ x : Nat, x % 256 < 256 := fun x => Nat.mod_lt _ (by decide)
  cases op <;> cases p <;> cases q <;>
    simp [port_write, Machine.setOUT, Machine.OUT, hc, hm]

theorem led_write_bits (op : LedOp) (i : Nat) (s t : Machine) (hi : i < 10)
    (ht : led_write op i s = some t) :
    (∀ q m, m < 8 → (t.OUT q).testBit m =
      if led_pins[i]? = some (q, m) then op_effect op ((s.OUT q).testBit m)
      else (s.OUT q).testBit m) ∧
    (∀ q, s.OUT q < 256 → t.OUT q < 256) ∧
    (∀ q k, led_pins[i]? = some (q, k) → t.OUT q < 256) := by
  obtain ⟨p, k, hk, hA, hP⟩ := led_pins_get i hi
  have e : led_write op i s
      = some (port_write op p (2 ^ k) { s with trace := s.trace ++ [⟨op, i⟩] }) := by
    simp only [led_write, hA]
  rw [e] at ht
  injection ht with ht
  subst ht
  have hOUT : ∀ r, ({ s with trace := s.trace ++ [⟨op, i⟩] } : Machine).OUT r = s.OUT r := by
    intro r; cases r <;> rfl
  refine ⟨?_, ?_, ?_⟩
  · intro q m hm
    have h := port_write_bit op p q k m { s with trace := s.trace ++ [⟨op, i⟩] } hm
    rw [and_two_pow_bne, and_two_pow_bne, hOUT] at h
    rw [h, hP]
    by_cases hc : p = q ∧ m = k
    · obtain ⟨h1, h2⟩ := hc
      subst h1; subst h2
      simp
    · have : ¬ (some (p, k) = some (q, m)) := by
        intro h'
        injection h' with h'
        injection h' with h1 h2
        exact hc ⟨h1, h2.symm⟩
      rw [if_neg hc, if_neg this]
  · intro q hq
    by_cases hpq : p = q
    · exact (port_write_OUT op p q _ _).1 hpq
    · rw [(port_write_OUT op p q _ _).2 hpq, hOUT]
      exact hq
  · intro q k' hq
    rw [hP] at hq
    injection hq with hq
    injection hq with h1 h2
    exact (port_write_OUT op p q _ _).1 h1

theorem led_seq_bits (op : LedOp) (c : Bool) (hc : ∀ b, op_effect op b = c) :
    ∀ (l : List Nat) (s t : Machine), (∀ i ∈ l, i < 10) → led_seq op l s = some t →
      (∀ q m, m < 8 → (t.OUT q).testBit m =
        if (∃ i ∈ l, led_pins[i]? = some (q, m)) then c else (s.OUT q).testBit m) ∧
      (∀ q, s.OUT q < 256 → t.OUT q < 256) ∧
      (∀ q k, (∃ i ∈ l, led_pins[i]? = some (q, k)) → t.OUT q < 256) := by
  intro l
  induction l with
  | nil =>
    intro s t _ ht
    simp only [led_seq] at ht
    injection ht with ht
    subst ht
    exact ⟨by simp, fun _ h => h, by simp⟩
  | cons i is ih =>
    intro s t hl ht
    obtain ⟨u, hu, _⟩ := led_write_spec op i s (hl i (by simp))
    simp only [led_seq, hu, Option.some_bind] at ht
    obtain ⟨b1, b2, b3⟩ := led_write_bits op i s u (hl i (by simp)) hu
    obtain ⟨c1, c2, c3⟩ := ih u t (fun k hk => hl k (by simp [hk])) ht
    refine ⟨?_, fun q hq => c2 q (b2 q hq), ?_⟩
    · intro q m hm
      rw [c1 q m hm, b1 q m hm, hc]
      by_cases h1 : ∃ j ∈ is, led_pins[j]? = some (q, m)
      · have h2 : ∃ j ∈ i :: is, led_pins[j]? = some (q, m) := by
          obtain ⟨j, hj, e⟩ := h1
          exact ⟨j, by simp [hj], e⟩
        rw [if_pos h1, if_pos h2]
      · rw [if_neg h1]
        by_cases h3 : led_pins[i]? = some (q, m)
        · have h2 : ∃ j ∈ i :: is, led_pins[j]? = some (q, m) := ⟨i, by simp, h3⟩
          rw [if_pos h3, if_pos h2]
        · have h2 : ¬ ∃ j ∈ i :: is, led_pins[j]? = some (q, m) := by
            rintro ⟨j, hj, e⟩
            rcases List.mem_cons.mp hj with rfl | hj
            · exact h3 e
            · exact h1 ⟨j, hj, e⟩
          rw [if_neg h3, if_neg h2]
    · rintro q k ⟨j, hj, e⟩
      rcases List.mem_cons.mp hj with rfl | hj
      · exact c2 q (b3 q k e)
      · exact c3 q k ⟨j, hj, e⟩

theorem mem_led_pins_iff (q : PortId) (m : Nat) :
    (∃ i ∈ List.range' 0 (10 - 0), led_pins[i]? = some (q, m)) ↔ (q, m) ∈ led_pins := by
  rw [List.mem_iff_getElem?]
  constructor
  · rintro ⟨i, _, e⟩
    exact ⟨i, e⟩
  · rintro ⟨i, e⟩
    have hi : i < 10 := by
      obtain ⟨h, _⟩ := List.getElem?_eq_some.mp e
      exact h
    exact ⟨i, by simp [List.mem_range'_1, hi], e⟩

theorem every_port_has_led (q : PortId) : ∃ k, (q, k) ∈ led_pins := by
  cases q
  · exact ⟨0, by decide⟩
  · exact ⟨2, by decide⟩
  · exact ⟨5, by decide⟩
  · exact ⟨5, by decide⟩

/-- Effect of `clear_leds` (`c = false`) and `set_leds` (`c = true`) on every bit
of the four output latches. -/
theorem all_leds_bits (op : LedOp) (c : Bool) (hc : ∀ b, op_effect op b = c) (s : Machine) :
    ∃ t, for_uint8 (fun i => decide (i < 10)) (fun i s => led_write op i s) LOOP_FUEL 0 s
        = some t ∧
      (∀ j, j < 10 → ledOn t j = c) ∧
      (∀ q m, m < 8 → (t.OUT q).testBit m =
        if (q, m) ∈ led_pins then c else (s.OUT q).testBit m) ∧
      (∀ q, t.OUT q < 256) := by
  have e : for_uint8 (fun i => decide (i < 10)) (fun i s => led_write op i s) LOOP_FUEL 0 s
      = led_seq op (List.range' 0 (10 - 0)) s :=
    for_uint8_led_seq op _ 10 (by decide) (fun _ => rfl) LOOP_FUEL 0 s (by decide) (by decide)
  have hl : ∀ i ∈ List.range' 0 (10 - 0), i < 10 := by
    intro i hi; simp [List.mem_range'_1] at hi; omega
  obtain ⟨t, h, _, _, hon⟩ := led_seq_spec op c hc (List.range' 0 (10 - 0)) s hl
  obtain ⟨b1, _, b3⟩ := led_seq_bits op c hc (List.range' 0 (10 - 0)) s t hl h
  refine ⟨t, e.trans h, ?_, ?_, ?_⟩
  · intro j hj
    rw [hon j hj]
    simp [List.mem_range'_1, hj]
  · intro q m hm
    rw [b1 q m hm]
    by_cases hmem : (q, m) ∈ led_pins
    · rw [if_pos hmem, if_pos ((mem_led_pins_iff q m).mpr hmem)]
    · rw [if_neg hmem, if_neg (fun h' => hmem ((mem_led_pins_iff q m).mp h'))]
  · intro q
    obtain ⟨k, hk⟩ := every_port_has_led q
    exact b3 q k ((mem_led_pins_iff q k).mpr hk)

theorem surface_eq_of_OUT {s t : Machine} (h : ∀ q, t.OUT q = s.OUT q) :
    surface t = surface s := by
  have hA := h PortId.PORTA
  have hB := h PortId.PORTB
  have hC := h PortId.PORTC
  have hF := h PortId.PORTF
  simp only [Machine.OUT] at hA hB hC hF
  simp only [surface, hA, hB, hC, hF]

/-! ## C13: the LED surface primitives -/

/-- C13 (LED surface primitives).  For every prior state of the four output
latches, `set_leds` returns with all ten LEDs on and `clear_leds` returns with
all ten LEDs off; in both cases every bit `0..7` of a port that is not one of
the ten LED bits keeps its value; and running either primitive a second time
leaves the four latches as the first run left them. -/
theorem led_primitives (s : Machine) :
    ∃ t1 t2 u1 u2, set_leds s = some t1 ∧ set_leds t1 = some t2 ∧
      clear_leds s = some u1 ∧ clear_leds u1 = some u2 ∧
      (∀ j, j < 10 → ledOn t1 j = true) ∧ (∀ j, j < 10 → ledOn u1 j = false) ∧
      (∀ q m, m < 8 → (q, m) ∉ led_pins →
        (t1.OUT q).testBit m = (s.OUT q).testBit m ∧
        (u1.OUT q).testBit m = (s.OUT q).testBit m) ∧
      surface t2 = surface t1 ∧ surface u2 = surface u1 := by
  obtain ⟨t1, ht1, on1, bits1, lt1⟩ := all_leds_bits LedOp.OUTSET true (fun _ => rfl) s
  obtain ⟨t2, ht2, _, bits2, lt2⟩ := all_leds_bits LedOp.OUTSET true (fun _ => rfl) t1
  obtain ⟨u1, hu1, off1, cbits1, clt1⟩ := all_leds_bits LedOp.OUTCLR false (fun _ => rfl) s
  obtain ⟨u2, hu2, _, cbits2, clt2⟩ := all_leds_bits LedOp.OUTCLR false (fun _ => rfl) u1
  refine ⟨t1, t2, u1, u2, ht1, ht2, hu1, hu2, on1, off1, ?_, ?_, ?_⟩
  · intro q m hm hmem
    rw [bits1 q m hm, cbits1 q m hm, if_neg hmem, if_neg hmem]
    exact ⟨rfl, rfl⟩
  · apply surface_eq_of_OUT
    intro q
    apply eq_of_testBit_lt8 _ _ (lt2 q) (lt1 q)
    intro m hm
    rw [bits2 q m hm, bits1 q m hm]
    split <;> rfl
  · apply surface_eq_of_OUT
    intro q
    apply eq_of_testBit_lt8 _ _ (clt2 q) (clt1 q)
    intro m hm
    rw [cbits2 q m hm, cbits1 q m hm]
    split <;> rfl

/-! ## C14: no aliasing -/

/-- C14 (no aliasing).  `LED_ARRAY` has ten entries, they are pairwise distinct
(port, bit-mask) pairs, every bit-mask is a single bit `2 ^ k` of an 8-bit port,
and for all `i ≠ j` in `0..9` a set, clear or toggle write to LED `i` returns
and leaves LED `j` as it was. -/
theorem no_aliasing :
    LED_ARRAY.length = 10 ∧ LED_ARRAY.Nodup ∧
    (∀ led ∈ LED_ARRAY, ∃ k, k < 8 ∧ led.bm = 2 ^ k) ∧
    (∀ (op : LedOp) (i j : Nat) (s : Machine), i < 10 → j < 10 → i ≠ j →
      ∃ t, led_write op i s = some t ∧ ledOn t j = ledOn s j) := by
  refine ⟨rfl, by decide, by decide, ?_⟩
  intro op i j s hi hj hij
  obtain ⟨t, ht, _, _, hon⟩ := led_write_spec op i s hi
  refine ⟨t, ht, ?_⟩
  rw [hon j hj, if_neg (fun h => hij h.symm)]

/-! ## Reachable states -/

theorem advance_wf (p d : Nat) (hp : p ≤ 9) :
    (advance p d).1 ≤ 9 ∧
    ((advance p d).2 = GOING_RIGHT ∨ (advance p d).2 = GOING_LEFT) := by
  unfold advance
  split <;> split <;> simp <;> omega

theorem repaint_writes_length (m : Nat) (hm : m = NORMAL ∨ m = FLIPPED) :
    (repaint_writes m).length = 10 := by
  rcases hm with h | h <;> subst h <;> decide

/-- Every handler returns from a well-formed state, in a well-formed state, and
a whole frame stays a whole frame. -/
theorem dispatch_spec (h : Handler) (s : Machine) (hw : WellFormed s) :
    ∃ t, dispatch h s = some t ∧ WellFormed t ∧ (whole_frame s → whole_frame t) := by
  obtain ⟨hp, hd, hm⟩ := hw
  cases h with
  | TCA0_OVF =>
    obtain ⟨t, ht, hadv, hmode, _, _, _, hon⟩ := sweep_tick_spec s hp hd
    have hpos : t.position = (advance s.position s.direction).1 := by rw [← hadv]
    have hdir : t.direction = (advance s.position s.direction).2 := by rw [← hadv]
    obtain ⟨w1, w2⟩ := advance_wf s.position s.direction hp
    refine ⟨t, ht, ⟨hpos ▸ w1, hdir ▸ w2, hmode ▸ hm⟩, fun _ => ?_⟩
    rcases hm with hN | hF
    · left
      intro j hj
      rw [hon j hj]
      by_cases e : j = t.position <;> simp [repaint_led, hN, e]
    · right; left
      intro j hj
      rw [hon j hj]
      by_cases e : j = t.position <;> simp [repaint_led, hF, flipped_ne_normal, e]
  | RTC_PIT =>
    obtain ⟨b1, b2, _, _, _, _, b7, b8⟩ := rtc_handler_spec s
    refine ⟨ISR_RTC_PIT_vect s, rfl, ⟨b1 ▸ hp, b2 ▸ hd, ?_⟩, ?_⟩
    · rw [b8]
      rcases hm with hN | hF
      · right; simp [hN]
      · left; simp [hF, flipped_ne_normal]
    · intro hf
      rcases hf with hf | hf | ⟨L, hL, hf⟩
      · left
        intro j hj
        rw [b7 j, b1]
        exact hf j hj
      · right; left
        intro j hj
        rw [b7 j, b1]
        exact hf j hj
      · right; right
        exact ⟨L, hL, fun j hj => by rw [b7 j]; exact hf j hj⟩
  | ADC0_RESRDY r pe =>
    obtain ⟨t, ht, a1, a2, a3, _, hhigh, hlow⟩ := adc_handler_spec r pe s
    refine ⟨t, ht, ⟨a2 ▸ hp, a3 ▸ hd, a1 ▸ hm⟩, ?_⟩
    by_cases hpe : pe &&& PIN1_bm ≠ 0
    · obtain ⟨_, _, hsame⟩ := hhigh hpe
      intro hf
      rcases hf with hf | hf | ⟨L, hL, hf⟩
      · left
        intro j hj
        rw [hsame j, a2]
        exact hf j hj
      · right; left
        intro j hj
        rw [hsame j, a2]
        exact hf j hj
      · right; right
        exact ⟨L, hL, fun j hj => by rw [hsame j]; exact hf j hj⟩
    · obtain ⟨_, hon⟩ := hlow (by simpa using hpe)
      intro _
      right; right
      obtain ⟨l0, l9⟩ := ladder_level_range (r % 65536)
      refine ⟨(ladder_level (r % 65536)).toNat, by omega, fun j hj => ?_⟩
      rw [hon j hj]
      congr 1
      apply propext
      omega

theorem run_handlers_spec (hs : List Handler) :
    ∀ s, WellFormed s → ∃ t, run_handlers hs s = some t ∧ WellFormed t ∧
      (whole_frame s → whole_frame t) := by
  induction hs with
  | nil => intro s hw; exact ⟨s, rfl, hw, fun h => h⟩
  | cons h hs ih =>
    intro s hw
    obtain ⟨u, hu, hwu, fu⟩ := dispatch_spec h s hw
    obtain ⟨t, ht, hwt, ft⟩ := ih u hwu
    exact ⟨t, by simp [run_handlers, hu, ht], hwt, fun hf => ft (fu hf)⟩

theorem main_startup_spec (s : Machine) :
    ∃ t, main_startup s = some t ∧ SameRegs s t ∧
      t.trace = s.trace ++ (List.range 10).map (fun i => (⟨LedOp.OUTCLR, i⟩ : LedWrite))
        ++ [⟨LedOp.OUTSET, 0⟩] ∧
      ∀ j, j < 10 → ledOn t j = decide (j = 0) := by
  obtain ⟨u, hu, r1, tr1, off⟩ := clear_leds_spec s
  obtain ⟨t, ht, r2, tr2, hon⟩ := led_write_spec LedOp.OUTSET 0 u (by decide)
  refine ⟨t, by simp [main_startup, hu, ht], sameRegs_trans r1 r2, by rw [tr2, tr1], ?_⟩
  intro j hj
  rw [hon j hj, off j hj]
  by_cases e : j = 0 <;> simp [e, op_effect]

/-! ## C16, C17, C18: reachable states and the start-up frame -/

/-- C16 (reachable-state well-formedness).  From any state with position 0,
direction `GOING_RIGHT` and mode `NORMAL`, every finite sequence of the three
handlers, each run to completion with arbitrary readings and button levels,
returns a state with position in `0..9`, direction `GOING_RIGHT` or
`GOING_LEFT` and mode `NORMAL` or `FLIPPED`; from that state a sweep tick
returns (every index it used was in bounds) after ten repaint writes and one
toggle. -/
theorem reachable_well_formed (s0 : Machine) (hs : List Handler)
    (hp : s0.position = 0) (hd : s0.direction = GOING_RIGHT) (hm : s0.mode = NORMAL) :
    ∃ t, run_handlers hs s0 = some t ∧
      t.position ≤ 9 ∧ (t.direction = GOING_RIGHT ∨ t.direction = GOING_LEFT) ∧
      (t.mode = NORMAL ∨ t.mode = FLIPPED) ∧
      ∃ t', ISR_TCA0_OVF_vect t = some t' ∧
        t'.trace = t.trace ++ repaint_writes t.mode ++ [⟨LedOp.OUTTGL, t'.position⟩] ∧
        (repaint_writes t.mode).length = 10 ∧ t'.position ≤ 9 := by
  obtain ⟨t, ht, ⟨w1, w2, w3⟩, _⟩ :=
    run_handlers_spec hs s0 ⟨by omega, Or.inl hd, Or.inl hm⟩
  obtain ⟨t', ht', hadv, _, _, _, htr, _⟩ := sweep_tick_spec t w1 w2
  have hpos : t'.position = (advance t.position t.direction).1 := by rw [← hadv]
  exact ⟨t, ht, w1, w2, w3, t', ht', htr, repaint_writes_length _ w3,
    hpos ▸ (advance_wf _ _ w1).1⟩

/-- Witness for C16: a tick, a mode toggle, a rendered sample and ten more
ticks from the start-up machine. -/
theorem reachable_well_formed_witness :
    (zero_machine.position = 0) ∧ (zero_machine.direction = GOING_RIGHT) ∧
    (zero_machine.mode = NORMAL) ∧
    ∃ t, run_handlers
        ([Handler.TCA0_OVF, Handler.RTC_PIT, Handler.ADC0_RESRDY 700 0]
          ++ List.replicate 10 Handler.TCA0_OVF) zero_machine = some t ∧
      t.position ≤ 9 ∧ (t.direction = GOING_RIGHT ∨ t.direction = GOING_LEFT) ∧
      (t.mode = NORMAL ∨ t.mode = FLIPPED) :=
  ⟨rfl, rfl, rfl,
    let ⟨t, h1, h2, h3, h4, _⟩ := reachable_well_formed zero_machine
      ([Handler.TCA0_OVF, Handler.RTC_PIT, Handler.ADC0_RESRDY 700 0]
        ++ List.replicate 10 Handler.TCA0_OVF) rfl rfl rfl
    ⟨t, h1, h2, h3, h4⟩⟩

/-- C17 (whole-frame invariant under run-to-completion).  Start from any state
with position 0, direction `GOING_RIGHT` and mode `NORMAL`, run the start-up
sequence of `main`, then any finite sequence of the three handlers, each to
completion.  The run returns and the LEDs then show exactly one LED on at the
sweep position, or exactly one LED off at the sweep position, or a bar with
LEDs `0..L` on and the rest off for some `L` in `0..9`. -/
theorem whole_frame_invariant (s0 : Machine) (hs : List Handler)
    (hp : s0.position = 0) (hd : s0.direction = GOING_RIGHT) (hm : s0.mode = NORMAL) :
    ∃ s1 t, main_startup s0 = some s1 ∧ run_handlers hs s1 = some t ∧
      ((∀ j, j < 10 → ledOn t j = decide (j = t.position)) ∨
       (∀ j, j < 10 → ledOn t j = !decide (j = t.position)) ∨
       (∃ L, L < 10 ∧ ∀ j, j < 10 → ledOn t j = decide (j ≤ L))) := by
  obtain ⟨s1, h1, ⟨r1, r2, r3, _⟩, _, hon⟩ := main_startup_spec s0
  have hw : WellFormed s1 := ⟨by omega, Or.inl (r3.trans hd), Or.inl (r1.trans hm)⟩
  have hf : whole_frame s1 := Or.inl (fun j hj => by rw [hon j hj, r2, hp])
  obtain ⟨t, ht, _, ft⟩ := run_handlers_spec hs s1 hw
  exact ⟨s1, t, h1, ht, ft hf⟩

/-- Witness for C17: the start-up machine, then a rendered sample at reading
511 followed by a mode toggle. -/
theorem whole_frame_invariant_witness :
    (zero_machine.position = 0) ∧ (zero_machine.direction = GOING_RIGHT) ∧
    (zero_machine.mode = NORMAL) ∧
    ∃ s1 t, main_startup zero_machine = some s1 ∧
      run_handlers [Handler.ADC0_RESRDY 511 0, Handler.RTC_PIT] s1 = some t ∧
      ((∀ j, j < 10 → ledOn t j = decide (j = t.position)) ∨
       (∀ j, j < 10 → ledOn t j = !decide (j = t.position)) ∨
       (∃ L, L < 10 ∧ ∀ j, j < 10 → ledOn t j = decide (j ≤ L))) :=
  ⟨rfl, rfl, rfl,
    whole_frame_invariant zero_machine [Handler.ADC0_RESRDY 511 0, Handler.RTC_PIT]
      rfl rfl rfl⟩

/-- C18 (start-up frame).  From any state with position 0, direction
`GOING_RIGHT` and mode `NORMAL`, the start-up sequence of `main` returns with
exactly LED 0 on; a NORMAL-mode tick that arrives at position 0 (from position 1
going left) shows that same frame; and the first sweep tick after start-up
returns with position 1, direction `GOING_RIGHT` and exactly LED 1 on. -/
theorem startup_frame (s0 : Machine)
    (hp : s0.position = 0) (hd : s0.direction = GOING_RIGHT) (hm : s0.mode = NORMAL) :
    ∃ s1 s2 w, main_startup s0 = some s1 ∧
      (∀ j, j < 10 → ledOn s1 j = decide (j = 0)) ∧ s1.position = 0 ∧
      ISR_TCA0_OVF_vect { s1 with position := 1, direction := GOING_LEFT } = some w ∧
      w.position = 0 ∧ (∀ j, j < 10 → ledOn w j = ledOn s1 j) ∧
      ISR_TCA0_OVF_vect s1 = some s2 ∧
      s2.position = 1 ∧ s2.direction = GOING_RIGHT ∧
      (∀ j, j < 10 → ledOn s2 j = decide (j = 1)) := by
  obtain ⟨s1, h1, ⟨r1, r2, r3, _⟩, _, hon⟩ := main_startup_spec s0
  have p1 : s1.position = 0 := r2.trans hp
  have d1 : s1.direction = GOING_RIGHT := r3.trans hd
  have m1 : s1.mode = NORMAL := r1.trans hm
  obtain ⟨s2, h2, hadv, _, _, _, _, hon2⟩ := sweep_tick_spec s1 (by omega) (Or.inl d1)
  obtain ⟨w, hw, hadvw, _, _, _, _, honw⟩ :=
    sweep_tick_spec { s1 with position := 1, direction := GOING_LEFT }
      (show (1 : Nat) ≤ 9 by decide) (Or.inr rfl)
  have e2 : (s2.position, s2.direction) = (1, GOING_RIGHT) := by
    rw [hadv, p1, d1]; rfl
  have ew : (w.position, w.direction) = (0, GOING_LEFT) := by
    rw [hadvw]; rfl
  have q2 : s2.position = 1 := congrArg Prod.fst e2
  have qw : w.position = 0 := congrArg Prod.fst ew
  refine ⟨s1, s2, w, h1, hon, p1, hw, qw, ?_, h2, q2, congrArg Prod.snd e2, ?_⟩
  · intro j hj
    have mw : ({ s1 with position := 1, direction := GOING_LEFT } : Machine).mode = NORMAL := m1
    rw [honw j hj, hon j hj, qw, mw]
    by_cases e : j = 0 <;> simp [repaint_led, e]
  · intro j hj
    rw [hon2 j hj, q2]
    by_cases e : j = 1 <;> simp [repaint_led, m1, e]

/-- Witness for C18: the start-up machine. -/
theorem startup_frame_witness :
    (zero_machine.position = 0) ∧ (zero_machine.direction = GOING_RIGHT) ∧
    (zero_machine.mode = NORMAL) ∧
    ∃ s1 s2, main_startup zero_machine = some s1 ∧
      (∀ j, j < 10 → ledOn s1 j = decide (j = 0)) ∧
      ISR_TCA0_OVF_vect s1 = some s2 ∧ s2.position = 1 ∧ s2.direction = GOING_RIGHT ∧
      (∀ j, j < 10 → ledOn s2 j = decide (j = 1)) :=
  ⟨rfl, rfl, rfl,
    let ⟨s1, s2, _, h1, h2, _, _, _, _, h3, h4, h5, h6⟩ := startup_frame zero_machine rfl rfl rfl
    ⟨s1, s2, h1, h2, h3, h4, h5, h6⟩⟩

/-! ## C19: the overlay loop -/

theorem for_uint8_out_of_fuel (cond : Nat → Bool) (body : Nat → Machine → Option Machine)
    (n : Nat) (hn : n ≤ 255) (hc : ∀ j, cond j = decide (j < n)) :
    ∀ (fuel i : Nat) (s : Machine), i ≤ n → fuel ≤ n - i →
      for_uint8 cond body fuel i s = none := by
  intro fuel
  induction fuel with
  | zero => intro i s _ _; rfl
  | succ fuel ih =>
    intro i s hi hf
    have h : i < n := by omega
    have hw : (i + 1) % 256 = i + 1 := Nat.mod_eq_of_lt (by omega)
    simp only [for_uint8, hc, h, decide_True, if_true, hw]
    cases body i s with
    | none => rfl
    | some u => exact ih (i + 1) u (by omega) (by omega)

theorem bar_loop_spec (level : Nat) (hl : level ≤ 9) (fuel : Nat) (hf : level + 1 < fuel)
    (u : Machine) :
    ∃ t, for_uint8 (fun i => decide ((i : Int) ≤ (level : Int)))
        (fun i s => led_write LedOp.OUTSET i s) fuel 0 u = some t ∧
      t.trace = u.trace ++ (List.range (level + 1)).map (fun i => (⟨LedOp.OUTSET, i⟩ : LedWrite)) := by
  have hc : ∀ j : Nat, decide ((j : Int) ≤ (level : Int)) = decide (j < level + 1) := by
    intro j
    congr 1
    apply propext
    omega
  have e := for_uint8_led_seq LedOp.OUTSET (fun i => decide ((i : Int) ≤ (level : Int)))
    (level + 1) (by omega) hc fuel 0 u (by omega) (by omega)
  obtain ⟨t, ht, _, tr, _⟩ := led_seq_spec LedOp.OUTSET true (fun _ => rfl)
    (List.range' 0 (level + 1 - 0)) u (by intro i hi; simp [List.mem_range'_1] at hi; omega)
  refine ⟨t, e.trans ht, ?_⟩
  rw [tr, List.range_eq_range']
  simp

/-- C19 (overlay index safety and termination).  For every 16-bit reading the
level chosen by the ladder is in `0..9`; the ADC handler is either a plain
return or a single call of `thermometer` with that level; it returns, and its
LED writes are none (pin 1 high) or the ten clears followed by sets at the
indices `0..level` in increasing order (pin 1 low).  For every level in `0..9`
the loop of `thermometer` finishes with exactly `level + 2` evaluations of its
condition, i.e. after `level + 1` iterations (one evaluation fewer is not
enough), it gives the same result with the full loop fuel, and it writes exactly
the indices `0..level`. -/
theorem overlay_safety (r pe : Nat) (s : Machine) (hr : r < 65536) :
    (0 ≤ ladder_level r ∧ ladder_level r ≤ 9) ∧
    (ISR_ADC0_RESRDY_vect r pe s =
      if pe &&& PIN1_bm ≠ 0 then some (with_perbuf r s)
      else thermometer (ladder_level r) (with_perbuf r s)) ∧
    (∃ t, ISR_ADC0_RESRDY_vect r pe s = some t ∧
      (pe &&& PIN1_bm ≠ 0 → t.trace = s.trace) ∧
      (pe &&& PIN1_bm = 0 →
        t.trace = s.trace ++ (List.range 10).map (fun i => (⟨LedOp.OUTCLR, i⟩ : LedWrite))
          ++ (List.range ((ladder_level r).toNat + 1)).map
              (fun i => (⟨LedOp.OUTSET, i⟩ : LedWrite)))) ∧
    (∀ (level : Nat) (u : Machine), level ≤ 9 →
      ∃ t, for_uint8 (fun i => decide ((i : Int) ≤ (level : Int)))
          (fun i s => led_write LedOp.OUTSET i s) (level + 2) 0 u = some t ∧
        for_uint8 (fun i => decide ((i : Int) ≤ (level : Int)))
          (fun i s => led_write LedOp.OUTSET i s) LOOP_FUEL 0 u = some t ∧
        for_uint8 (fun i => decide ((i : Int) ≤ (level : Int)))
          (fun i s => led_write LedOp.OUTSET i s) (level + 1) 0 u = none ∧
        t.trace = u.trace ++
          (List.range (level + 1)).map (fun i => (⟨LedOp.OUTSET, i⟩ : LedWrite))) := by
  have e : r % 65536 = r := Nat.mod_eq_of_lt hr
  refine ⟨ladder_level_range r, adc_handler_eq r pe s hr, ?_, ?_⟩
  · obtain ⟨t, ht, _, _, _, _, hhigh, hlow⟩ := adc_handler_spec r pe s
    rw [e] at hlow
    exact ⟨t, ht, fun h => (hhigh h).2.1, fun h => (hlow h).1⟩
  · intro level u hl
    obtain ⟨t, ht, tr⟩ := bar_loop_spec level hl (level + 2) (by omega) u
    obtain ⟨t', ht', _⟩ := bar_loop_spec level hl LOOP_FUEL (by simp only [LOOP_FUEL]; omega) u
    have hc : ∀ j : Nat, decide ((j : Int) ≤ (level : Int)) = decide (j < level + 1) := by
      intro j
      congr 1
      apply propext
      omega
    have hnone := for_uint8_out_of_fuel (fun i => decide ((i : Int) ≤ (level : Int)))
      (fun i s => led_write LedOp.OUTSET i s) (level + 1) (by omega) hc (level + 1) 0 u
      (by omega) (by omega)
    have hsame : t' = t := by
      have e1 := for_uint8_led_seq LedOp.OUTSET (fun i => decide ((i : Int) ≤ (level : Int)))
        (level + 1) (by omega) hc (level + 2) 0 u (by omega) (by omega)
      have e2 := for_uint8_led_seq LedOp.OUTSET (fun i => decide ((i : Int) ≤ (level : Int)))
        (level + 1) (by omega) hc LOOP_FUEL 0 u (by omega) (by simp only [LOOP_FUEL]; omega)
      rw [e1] at ht
      rw [e2, ht] at ht'
      injection ht' with ht'
      exact ht'.symm
    exact ⟨t, ht, hsame ▸ ht', hnone, tr⟩

/-- Witness for C19: the full-scale reading 1023 with the button pin low. -/
theorem overlay_safety_witness :
    (1023 < 65536) ∧ (0 ≤ ladder_level 1023 ∧ ladder_level 1023 ≤ 9) ∧
    (∃ t, ISR_ADC0_RESRDY_vect 1023 0 zero_machine = some t ∧
      (0 &&& PIN1_bm ≠ 0 → t.trace = zero_machine.trace) ∧
      (0 &&& PIN1_bm = 0 →
        t.trace = zero_machine.trace
          ++ (List.range 10).map (fun i => (⟨LedOp.OUTCLR, i⟩ : LedWrite))
          ++ (List.range ((ladder_level 1023).toNat + 1)).map
              (fun i => (⟨LedOp.OUTSET, i⟩ : LedWrite)))) :=
  ⟨by decide, (overlay_safety 1023 0 zero_machine (by decide)).1,
    (overlay_safety 1023 0 zero_machine (by decide)).2.2.1⟩

end CylonEye
